import Mathlib

/-!
Verification development for the `gim2png` GIM texture converter
(`src/gim2png/src/gim.rs` and `src/gim2png/src/main.rs`).

The Rust source is shallowly embedded: byte buffers are `List Nat`
(each element a byte value), fallible computations return `RRes`, which
distinguishes a typed error (Rust `anyhow::bail!` / `Err`) from an
index-out-of-range abort (Rust slice/index panics), and the unbounded
`while` loops of the chunk walker are given explicit fuel (`none` =
fuel exhausted, i.e. the loop has not terminated within `fuel` steps).
-/

namespace Gim2Png

/-- Result of a fallible Rust computation: `ok`, a typed error
(`anyhow` error with message), or an abort caused by an out-of-range
slice or index operation. -/
inductive RRes (α : Type) where
  | ok : α → RRes α
  | error : String → RRes α
  | panic : RRes α
deriving DecidableEq, Repr

namespace RRes

def bind {α β : Type} : RRes α → (α → RRes β) → RRes β
  | .ok a, f => f a
  | .error e, _ => .error e
  | .panic, _ => .panic

instance : Monad RRes where
  pure := RRes.ok
  bind := RRes.bind

def map {α β : Type} (f : α → β) : RRes α → RRes β
  | .ok a => .ok (f a)
  | .error e => .error e
  | .panic => .panic

def isError {α : Type} : RRes α → Bool
  | .error _ => true
  | _ => false

@[simp] theorem bind_ok {α β : Type} (a : α) (f : α → RRes β) :
    RRes.bind (.ok a) f = f a := rfl

@[simp] theorem bind_error {α β : Type} (e : String) (f : α → RRes β) :
    RRes.bind (.error e) f = .error e := rfl

@[simp] theorem bind_panic {α β : Type} (f : α → RRes β) :
    RRes.bind .panic f = .panic := rfl

@[simp] theorem map_ok {α β : Type} (f : α → β) (a : α) :
    RRes.map f (.ok a) = .ok (f a) := rfl

@[simp] theorem map_error {α β : Type} (f : α → β) (e : String) :
    RRes.map f (.error e) = .error e := rfl

@[simp] theorem map_panic {α β : Type} (f : α → β) :
    RRes.map f (.panic : RRes α) = .panic := rfl

theorem map_eq_bind_pure {α β : Type} (f : α → β) (x : RRes α) :
    f <$> x = RRes.bind x (fun a => RRes.ok (f a)) := rfl

end RRes

instance : LawfulMonad RRes :=
  LawfulMonad.mk' RRes
    (fun x => by cases x <;> rfl)
    (fun x f => rfl)
    (fun x f g => by cases x <;> rfl)

/-- A byte buffer (`&[u8]` / `Vec<u8>`); elements are byte values. -/
abbrev Buffer := List Nat

/-- Read a little-endian u16 from two consecutive bytes. -/
def readU16 (b : Buffer) (o : Nat) : Nat :=
  b.getD o 0 + 256 * b.getD (o + 1) 0

/-- Read a little-endian u32 from four consecutive bytes. -/
def readU32 (b : Buffer) (o : Nat) : Nat :=
  b.getD o 0 + 256 * b.getD (o + 1) 0 + 65536 * b.getD (o + 2) 0 +
    16777216 * b.getD (o + 3) 0

/-- Rust `&b[s..e]`: panics when `s > e` or `e > b.len()`. -/
def sliceBytes (b : Buffer) (s e : Nat) : RRes Buffer :=
  if s ≤ e ∧ e ≤ b.length then .ok ((b.drop s).take (e - s)) else .panic

/-- Rust `b[i]` read: panics when `i ≥ b.len()`. -/
def listGet (b : Buffer) (i : Nat) : RRes Nat :=
  if i < b.length then .ok (b.getD i 0) else .panic

/-- Rust `b[i] = v` write: panics when `i ≥ b.len()`. -/
def listSet (b : Buffer) (i v : Nat) : RRes Buffer :=
  if i < b.length then .ok (b.set i v) else .panic

/-- `GimChunk` from gim.rs: type tag and three offsets relative to the
chunk's own start (the `unused` field is dropped; it is never read). -/
structure GimChunk where
  chunk_type : Nat
  next_offs : Nat
  child_offs : Nat
  data_offs : Nat
deriving DecidableEq, Repr

def SCEGIM_PICTURE : Nat := 3
def SCEGIM_IMAGE : Nat := 4
def SCEGIM_PALETTE : Nat := 5

/-- `gim_picture_get_chunk_header` (gim.rs:187-193): slices 16 bytes at
`start` — a Rust slice out of range panics — then decodes the chunk
fields (little-endian; the layout of the `repr(C)` struct). -/
def gim_picture_get_chunk_header (bytes : Buffer) (start : Nat) : RRes GimChunk :=
  if start + 16 ≤ bytes.length then
    .ok { chunk_type := readU16 bytes start
          next_offs := readU32 bytes (start + 4)
          child_offs := readU32 bytes (start + 8)
          data_offs := readU32 bytes (start + 12) }
  else .panic

/-- Reference walk of the child list (the iteration structure of
gim.rs:204-212 / 225-229): starting at `offs`, repeatedly parse a chunk
and advance by its `next_offs`, while strictly below `chunk_end`;
collects every visited `(chunk, offset)` pair in order.  `none` means
the fuel ran out before the loop exited. -/
def childWalk (bytes : Buffer) (chunk_end : Nat) :
    Nat → Nat → Option (RRes (List (GimChunk × Nat)))
  | 0, _ => none
  | fuel + 1, offs =>
    if offs < chunk_end then
      match gim_picture_get_chunk_header bytes offs with
      | .ok c =>
        (childWalk bytes chunk_end fuel (offs + c.next_offs)).map
          (RRes.map (fun l => (c, offs) :: l))
      | .error e => some (.error e)
      | .panic => some .panic
    else some (.ok [])

/-- The accumulator loop of `gim_get_child_chunk` (gim.rs:204-212):
`acc` is the `found_chunk` variable, overwritten on every type match. -/
def getChildLoop (bytes : Buffer) (chunk_end : Nat) (wanted : Nat) :
    Nat → Nat → Option (GimChunk × Nat) → Option (RRes (Option (GimChunk × Nat)))
  | 0, _, _ => none
  | fuel + 1, offs, acc =>
    if offs < chunk_end then
      match gim_picture_get_chunk_header bytes offs with
      | .ok c =>
        getChildLoop bytes chunk_end wanted fuel (offs + c.next_offs)
          (if c.chunk_type = wanted then some (c, offs) else acc)
      | .error e => some (.error e)
      | .panic => some .panic
    else some (.ok acc)

/-- `gim_get_child_chunk` (gim.rs:195-214), fuelled. -/
def gim_get_child_chunk (fuel : Nat) (buffer : Buffer) (start_offset : Nat)
    (parent_chunk : GimChunk) (chunk_type : Nat) :
    Option (RRes (Option (GimChunk × Nat))) :=
  getChildLoop buffer (start_offset + parent_chunk.next_offs) chunk_type fuel
    (start_offset + parent_chunk.child_offs) none

/-- `gim_process_child_chunks` (gim.rs:219-231) with the callback's
mutable captures made explicit as a state `σ` threaded through it. -/
def processChunkLoop {σ : Type} (bytes : Buffer) (chunk_end : Nat)
    (f : σ → GimChunk → Nat → RRes σ) :
    Nat → Nat → σ → Option (RRes σ)
  | 0, _, _ => none
  | fuel + 1, offs, s =>
    if offs < chunk_end then
      match gim_picture_get_chunk_header bytes offs with
      | .ok c =>
        match f s c offs with
        | .ok s2 => processChunkLoop bytes chunk_end f fuel (offs + c.next_offs) s2
        | .error e => some (.error e)
        | .panic => some .panic
      | .error e => some (.error e)
      | .panic => some .panic
    else some (.ok s)

/-- `gim_process_child_chunks` at the call interface of gim.rs. -/
def gim_process_child_chunks {σ : Type} (fuel : Nat) (buffer : Buffer)
    (start_offset : Nat) (parent_chunk : GimChunk)
    (f : σ → GimChunk → Nat → RRes σ) (init : σ) : Option (RRes σ) :=
  processChunkLoop buffer (start_offset + parent_chunk.next_offs) f fuel
    (start_offset + parent_chunk.child_offs) init

/-- The last child among `l` whose type matches `wanted`, falling back
to a previously found candidate `acc` — the declarative reading of the
`found_chunk` accumulator of gim.rs:203-210. -/
def lastMatchAcc (wanted : Nat) (acc : Option (GimChunk × Nat))
    (l : List (GimChunk × Nat)) : Option (GimChunk × Nat) :=
  Option.orElse ((l.filter (fun p => p.1.chunk_type == wanted)).getLast?)
    (fun _ => acc)

theorem lastMatchAcc_nil (wanted : Nat) (acc : Option (GimChunk × Nat)) :
    lastMatchAcc wanted acc [] = acc := rfl

theorem lastMatchAcc_cons (wanted : Nat) (acc : Option (GimChunk × Nat))
    (c : GimChunk) (o : Nat) (l : List (GimChunk × Nat)) :
    lastMatchAcc wanted acc ((c, o) :: l) =
      lastMatchAcc wanted (if c.chunk_type = wanted then some (c, o) else acc) l := by
  unfold lastMatchAcc
  by_cases h : c.chunk_type = wanted
  · have hb : ((c, o).1.chunk_type == wanted) = true := by simpa using h
    simp only [List.filter_cons, hb, if_pos h, if_true, List.getLast?_cons]
    cases hl : (l.filter (fun p => p.1.chunk_type == wanted)).getLast? <;>
      simp [Option.orElse, hl]
  · simp only [List.filter_cons, if_neg h]
    have : ((c, o).1.chunk_type == wanted) = false := by
      simpa using h
    simp [this]

/-- The `found_chunk` accumulator loop computes the last matching child
of the visited list: `gim_get_child_chunk`'s loop refines
`lastMatchAcc` over the reference walk. -/
theorem getChildLoop_eq_walk (bytes : Buffer) (chunk_end wanted : Nat) :
    ∀ (fuel offs : Nat) (acc : Option (GimChunk × Nat)),
      getChildLoop bytes chunk_end wanted fuel offs acc =
        (childWalk bytes chunk_end fuel offs).map
          (RRes.map (lastMatchAcc wanted acc)) := by
  intro fuel
  induction fuel with
  | zero => intro offs acc; rfl
  | succ n ih =>
    intro offs acc
    by_cases h : offs < chunk_end
    · cases hp : gim_picture_get_chunk_header bytes offs with
      | ok c =>
        simp only [getChildLoop, childWalk, if_pos h, hp]
        rw [ih]
        cases hw : childWalk bytes chunk_end n (offs + c.next_offs) with
        | none => rfl
        | some r =>
          cases r with
          | ok l => simp [RRes.map, lastMatchAcc_cons]
          | error e => rfl
          | panic => rfl
      | error e => simp [getChildLoop, childWalk, if_pos h, hp]
      | panic => simp [getChildLoop, childWalk, if_pos h, hp]
    · simp [getChildLoop, childWalk, if_neg h, lastMatchAcc_nil, RRes.map]

/-- Error-propagating fold of a callback over an explicit child list:
the declarative counterpart of `gim_process_child_chunks`. -/
def foldChunks {σ : Type} (f : σ → GimChunk → Nat → RRes σ) :
    σ → List (GimChunk × Nat) → RRes σ
  | s, [] => .ok s
  | s, (c, o) :: t =>
    match f s c o with
    | .ok s2 => foldChunks f s2 t
    | .error e => .error e
    | .panic => .panic

/-- When the reference walk of the children succeeds with visited list
`l`, the stateful callback loop is exactly the fold of the callback
over `l`. -/
theorem processChunkLoop_eq_foldChunks {σ : Type} (bytes : Buffer)
    (chunk_end : Nat) (f : σ → GimChunk → Nat → RRes σ) :
    ∀ (fuel offs : Nat) (s : σ) (l : List (GimChunk × Nat)),
      childWalk bytes chunk_end fuel offs = some (.ok l) →
      processChunkLoop bytes chunk_end f fuel offs s = some (foldChunks f s l) := by
  intro fuel
  induction fuel with
  | zero => intro offs s l hw; simp [childWalk] at hw
  | succ n ih =>
    intro offs s l hw
    by_cases h : offs < chunk_end
    · cases hp : gim_picture_get_chunk_header bytes offs with
      | ok c =>
        simp only [childWalk, if_pos h, hp] at hw
        cases hw2 : childWalk bytes chunk_end n (offs + c.next_offs) with
        | none => simp [hw2] at hw
        | some r =>
          cases r with
          | ok l2 =>
            simp only [hw2, Option.map_some, RRes.map] at hw
            obtain ⟨rfl⟩ : (c, offs) :: l2 = l := by
              cases hw; rfl
            simp only [processChunkLoop, if_pos h, hp]
            cases hf : f s c offs with
            | ok s2 => simp [foldChunks, hf, ih _ s2 l2 hw2]
            | error e => simp [foldChunks, hf]
            | panic => simp [foldChunks, hf]
          | error e => simp [hw2, RRes.map] at hw
          | panic => simp [hw2, RRes.map] at hw
      | error e => simp [childWalk, if_pos h, hp] at hw
      | panic => simp [childWalk, if_pos h, hp] at hw
    · simp only [childWalk, if_neg h, Option.some.injEq] at hw
      cases hw
      simp [processChunkLoop, if_neg h, foldChunks]

/-- `GimImageHeader` from gim.rs:40-63 (a 48-byte `repr(C)` record of
u16 and u32 fields). -/
structure GimImageHeader where
  header_size : Nat
  reference : Nat
  format : Nat
  order : Nat
  width : Nat
  height : Nat
  bpp : Nat
  pitch_align : Nat
  height_align : Nat
  dim_count : Nat
  reserved : Nat
  reserved2 : Nat
  offsets : Nat
  images : Nat
  total : Nat
  plane_mask : Nat
  level_type : Nat
  level_count : Nat
  frame_type : Nat
  frame_count : Nat
deriving DecidableEq, Repr

/-- Decode a `GimImageHeader` at offset `o`: slices 48 bytes (panics
when out of range, as the Rust range indexing does) and reads the
fields at their `repr(C)` layout offsets. -/
def parseImageHeader (b : Buffer) (o : Nat) : RRes GimImageHeader :=
  if o + 48 ≤ b.length then
    .ok { header_size := readU16 b o
          reference := readU16 b (o + 2)
          format := readU16 b (o + 4)
          order := readU16 b (o + 6)
          width := readU16 b (o + 8)
          height := readU16 b (o + 10)
          bpp := readU16 b (o + 12)
          pitch_align := readU16 b (o + 14)
          height_align := readU16 b (o + 16)
          dim_count := readU16 b (o + 18)
          reserved := readU16 b (o + 20)
          reserved2 := readU16 b (o + 22)
          offsets := readU32 b (o + 24)
          images := readU32 b (o + 28)
          total := readU32 b (o + 32)
          plane_mask := readU32 b (o + 36)
          level_type := readU16 b (o + 40)
          level_count := readU16 b (o + 42)
          frame_type := readU16 b (o + 44)
          frame_count := readU16 b (o + 46) }
  else .panic

/-- Valid `ImageFormat` discriminants (gim.rs:94-116); any other u16
value makes `TryFrom` fail, surfaced as a typed error by the callers. -/
def isValidImageFormat (v : Nat) : Bool :=
  v ≤ 10 ∨ v = 264 ∨ v = 265 ∨ v = 266

/-- Valid `ImageOrder` discriminants (gim.rs:147-157). -/
def isValidImageOrder (v : Nat) : Bool :=
  v = 0 ∨ v = 1

/-- Chop a byte list into little-endian u32 values
(`bytemuck::try_cast_slice` to `&[u32]`; the alignment of the
underlying allocation is not modelled). -/
def u32ListOf : Buffer → List Nat
  | b0 :: b1 :: b2 :: b3 :: t =>
    (b0 + 256 * b1 + 65536 * b2 + 16777216 * b3) :: u32ListOf t
  | _ => []

/-- Decode one image-data or palette child (the shared body of the two
arms of the callback in gim.rs:263-314): header at
`child_offset + data_offs`, then the `level_count * frame_count` u32
offset table at `header_offset + offsets`, then the payload slice
`buffer[header_offset + images .. header_offset + total]`. -/
def decodeImageChild (buffer : Buffer) (child_offset : Nat) (c : GimChunk) :
    RRes (GimImageHeader × List Nat × Buffer) :=
  RRes.bind (parseImageHeader buffer (child_offset + c.data_offs)) (fun hdr =>
    let header_offset := child_offset + c.data_offs
    let offsets_size := hdr.level_count * hdr.frame_count * 4
    let offsets_offset := header_offset + hdr.offsets
    RRes.bind (sliceBytes buffer offsets_offset (offsets_offset + offsets_size))
      (fun obytes =>
        RRes.bind (sliceBytes buffer (header_offset + hdr.images)
            (header_offset + hdr.total)) (fun dat =>
          .ok (hdr, u32ListOf obytes, dat))))

/-- The callback's mutable captures in `load_gim_image`
(gim.rs:252-257). -/
structure LoadState where
  image_header : Option GimImageHeader
  image_offsets : Option (List Nat)
  image_data : Option Buffer
  palette_header : Option GimImageHeader
  palette_offsets : Option (List Nat)
  palette_data : Option Buffer
deriving DecidableEq, Repr

def initLoadState : LoadState :=
  { image_header := none, image_offsets := none, image_data := none
    palette_header := none, palette_offsets := none, palette_data := none }

/-- The classification callback of gim.rs:260-320: an image child
overwrites the image fields, a palette child the palette fields, any
other chunk type is a hard error. -/
def loadCallback (buffer : Buffer) (s : LoadState) (c : GimChunk)
    (child_offset : Nat) : RRes LoadState :=
  if c.chunk_type = SCEGIM_IMAGE then
    match decodeImageChild buffer child_offset c with
    | .ok (h, o, d) =>
      .ok { s with image_header := some h, image_offsets := some o,
                   image_data := some d }
    | .error e => .error e
    | .panic => .panic
  else if c.chunk_type = SCEGIM_PALETTE then
    match decodeImageChild buffer child_offset c with
    | .ok (h, o, d) =>
      .ok { s with palette_header := some h, palette_offsets := some o,
                   palette_data := some d }
    | .error e => .error e
    | .panic => .panic
  else .error "Unsupported child chunk type"

/-- `GimPicture` (gim.rs:233-242). -/
structure GimPicture where
  image_header : GimImageHeader
  image_offsets : List Nat
  image_data : Buffer
  palette_header : Option GimImageHeader
  palette_offsets : Option (List Nat)
  palette_data : Option Buffer
deriving DecidableEq, Repr

/-- `gim_picture_check_file_header` (gim.rs:169-185): slices the first
16 bytes (panics when the buffer is shorter) and checks the three
fixed tags. -/
def gim_picture_check_file_header (b : Buffer) : RRes Unit :=
  if b.length < 16 then .panic
  else if readU32 b 0 ≠ 0x2e47494d then .error "Invalid GIM signature"
  else if readU32 b 4 ≠ 0x312e3030 then .error "Unsupported GIM version"
  else if readU32 b 8 ≠ 0x00505350 then .error "Unsupported GIM style"
  else .ok ()

/-- `load_gim_image` (gim.rs:244-335), fuelled through the chunk
walks. -/
def load_gim_image (fuel : Nat) (buffer : Buffer) : Option (RRes GimPicture) :=
  match gim_picture_check_file_header buffer with
  | .error e => some (.error e)
  | .panic => some .panic
  | .ok _ =>
    match gim_picture_get_chunk_header buffer 16 with
    | .error e => some (.error e)
    | .panic => some .panic
    | .ok root =>
      match gim_get_child_chunk fuel buffer 16 root SCEGIM_PICTURE with
      | none => none
      | some (.error e) => some (.error e)
      | some .panic => some .panic
      | some (.ok none) => some (.error "Picture chunk not found")
      | some (.ok (some (pchunk, poff))) =>
        match gim_process_child_chunks fuel buffer poff pchunk
            (loadCallback buffer) initLoadState with
        | none => none
        | some (.error e) => some (.error e)
        | some .panic => some .panic
        | some (.ok s) =>
          match s.image_header with
          | none => some (.error "Image header not found")
          | some h =>
            match s.image_offsets with
            | none => some (.error "Image offsets not found")
            | some o =>
              match s.image_data with
              | none => some (.error "Image data not found")
              | some d =>
                some (.ok { image_header := h, image_offsets := o,
                            image_data := d,
                            palette_header := s.palette_header,
                            palette_offsets := s.palette_offsets,
                            palette_data := s.palette_data })

/-- Rust `usize::div_ceil` as implemented: `a / b + (a % b != 0)`. -/
def rustDivCeil (a b : Nat) : Nat := a / b + if a % b = 0 then 0 else 1

/-- One aligned dimension (main.rs:158-161); Rust `div_ceil` aborts on
a zero divisor. -/
def alignedDim (v a : Nat) : RRes Nat :=
  if a = 0 then .panic else .ok (rustDivCeil v a * a)

/-- The RGBA8888 width fallback (main.rs:172-180): when the aligned
area's byte size exceeds the payload, the width is recomputed from the
payload length and the aligned height; the Bool reports the warning. -/
def rgba8888Geom (iw ih dataLen : Nat) : Nat × Bool :=
  if dataLen < ih * iw * 4 then (dataLen / 4 / ih, true) else (iw, false)

/-- Four consecutive byte stores `out[dst+k] = bk` (k = 0..3): the
composite is `ok` exactly when all four indices are in range, and an
abort otherwise, matching the statement-by-statement Rust writes. -/
def listSet4 (out : Buffer) (dst b0 b1 b2 b3 : Nat) : RRes Buffer :=
  if dst + 3 < out.length then
    .ok ((((out.set dst b0).set (dst + 1) b1).set (dst + 2) b2).set (dst + 3) b3)
  else .panic

/-- `out[dst+k] = pal[poff+k]` for k = 0..3 (the INDEX8 pixel store,
main.rs:296-299): Rust indexes the palette without a bounds check, so
an out-of-range palette offset is an abort, not a typed error. -/
def palWrite4 (pal out : Buffer) (poff dst : Nat) : RRes Buffer :=
  if poff + 3 < pal.length ∧ dst + 3 < out.length then
    .ok ((((out.set dst (pal.getD poff 0)).set (dst + 1)
        (pal.getD (poff + 1) 0)).set (dst + 2)
        (pal.getD (poff + 2) 0)).set (dst + 3) (pal.getD (poff + 3) 0))
  else .panic

/-- The INDEX4 double-pixel store (main.rs:401-409): eight writes
`out[dst+k] = pal[i0+k]`, `out[dst+4+k] = pal[i1+k]` (k = 0..3).  Note
the source indexes the palette at the nibble value itself — `i0 + k`,
not `i0*4 + k`. -/
def index4WritePair (pal out : Buffer) (i0 i1 dst : Nat) : RRes Buffer :=
  if i0 + 3 < pal.length ∧ i1 + 3 < pal.length ∧ dst + 7 < out.length then
    .ok ((((((((out.set dst (pal.getD i0 0)).set (dst + 1)
        (pal.getD (i0 + 1) 0)).set (dst + 2)
        (pal.getD (i0 + 2) 0)).set (dst + 3)
        (pal.getD (i0 + 3) 0)).set (dst + 4)
        (pal.getD i1 0)).set (dst + 5)
        (pal.getD (i1 + 1) 0)).set (dst + 6)
        (pal.getD (i1 + 2) 0)).set (dst + 7) (pal.getD (i1 + 3) 0))
  else .panic

/-- The linear RGBA8888 loop of main.rs:232-248: fills a buffer of its
own (the shadowing local `out`) row-major from the payload, checking
each source offset (`bail!` = typed error) before reading. -/
def rgba8888LinearFill (data : Buffer) (iw ih : Nat) : RRes Buffer :=
  List.foldlM (fun out y =>
    List.foldlM (fun out x =>
      let src := (y * iw + x) * 4
      if data.length ≤ src + 3 then .error "source index out of bounds"
      else listSet4 out ((y * iw + x) * 4) (data.getD src 0)
        (data.getD (src + 1) 0) (data.getD (src + 2) 0) (data.getD (src + 3) 0))
      out (List.range iw))
    (List.replicate (iw * ih * 4) 0) (List.range ih)

/-- The tiled RGBA8888 loop of main.rs:201-229, writing into the outer
output buffer `out0`. -/
def rgba8888TiledFill (data : Buffer) (iw ih tw th : Nat) (out0 : Buffer) :
    RRes Buffer :=
  let tiles_x := iw / tw
  let tiles_y := ih / th
  List.foldlM (fun out ty =>
    List.foldlM (fun out tx =>
      List.foldlM (fun out y =>
        List.foldlM (fun out x =>
          let src := ((ty * tiles_x + tx) * (tw * th) + y * tw + x) * 4
          let dst := ((ty * th + y) * iw + (tx * tw + x)) * 4
          if data.length ≤ src + 3 then .error "source index out of bounds"
          else listSet4 out dst (data.getD src 0) (data.getD (src + 1) 0)
            (data.getD (src + 2) 0) (data.getD (src + 3) 0))
          out (List.range tw))
        out (List.range th))
      out (List.range tiles_x))
    out0 (List.range tiles_y)

/-- The linear INDEX8 loop of main.rs:306-323. -/
def index8LinearFill (data pal : Buffer) (iw ih : Nat) (out0 : Buffer) :
    RRes Buffer :=
  List.foldlM (fun out y =>
    List.foldlM (fun out x =>
      let src := y * iw + x
      if data.length ≤ src then .error "source index out of bounds"
      else palWrite4 pal out ((data.getD src 0) * 4) ((y * iw + x) * 4))
      out (List.range iw))
    out0 (List.range ih)

/-- The tiled INDEX8 loop of main.rs:275-303. -/
def index8TiledFill (data pal : Buffer) (iw ih tw th : Nat) (out0 : Buffer) :
    RRes Buffer :=
  let tiles_x := iw / tw
  let tiles_y := ih / th
  List.foldlM (fun out ty =>
    List.foldlM (fun out tx =>
      List.foldlM (fun out y =>
        List.foldlM (fun out x =>
          let src := (ty * tiles_x + tx) * (tw * th) + y * tw + x
          let dst := ((ty * th + y) * iw + (tx * tw + x)) * 4
          if data.length ≤ src then .error "source index out of bounds"
          else palWrite4 pal out ((data.getD src 0) * 4) dst)
          out (List.range tw))
        out (List.range th))
      out (List.range tiles_x))
    out0 (List.range tiles_y)

/-- The linear INDEX4 loop of main.rs:386-411: each payload byte packs
two pixels (low nibble first); the source offset is checked before the
read, but the palette is indexed at the raw nibble value (no ×4). -/
def index4LinearFill (data pal : Buffer) (iw ih : Nat) (out0 : Buffer) :
    RRes Buffer :=
  List.foldlM (fun out y =>
    let row_src := (y * iw) / 2
    let row_dest := y * iw * 4
    List.foldlM (fun out x =>
      let src := row_src + x
      if data.length ≤ src then .error "source index out of bounds"
      else
        let b := data.getD src 0
        index4WritePair pal out (b &&& 15) (b >>> 4) (row_dest + x * 8))
      out (List.range (iw / 2)))
    out0 (List.range ih)

/-- The tiled INDEX4 loop of main.rs:354-383 (the path marked FIXME in
the source): no source bounds check — the payload read itself can
abort — and a destination stride of 8 bytes per iteration. -/
def index4TiledFill (data pal : Buffer) (iw ih tw th : Nat) (out0 : Buffer) :
    RRes Buffer :=
  let tiles_x := iw / tw
  let tiles_y := ih / th
  List.foldlM (fun out ty =>
    List.foldlM (fun out tx =>
      List.foldlM (fun out y =>
        List.foldlM (fun out x =>
          let src := (ty * tiles_x + tx) * (tw * th) + y * tw + x
          let dst := ((ty * th + y) * iw + (tx * tw + x)) * 8
          RRes.bind (listGet data src) (fun b =>
            index4WritePair pal out (b &&& 15) (b >>> 4) dst))
          out (List.range (tw / 2)))
        out (List.range th))
      out (List.range tiles_x))
    out0 (List.range tiles_y)

/-- One RGBA5551 palette entry expansion (main.rs:436-450): read the
two bytes of entry `i` (unchecked Rust indexing), decode the packed
5-5-5-1 color, and store the four RGBA bytes. -/
def palExpandStep (pal : Buffer) (out : Buffer) (i : Nat) : RRes Buffer :=
  if i * 2 + 1 < pal.length ∧ i * 4 + 3 < out.length then
    let pix := ((pal.getD (i * 2 + 1) 0) <<< 8) ||| (pal.getD (i * 2) 0)
    let b := ((pix >>> 10) &&& 31) <<< 3
    let g := ((pix >>> 5) &&& 31) <<< 3
    let r := (pix &&& 31) <<< 3
    let a := if pix &&& 32768 ≠ 0 then 255 else 0
    .ok ((((out.set (i * 4) r).set (i * 4 + 1) g).set (i * 4 + 2) b).set
      (i * 4 + 3) a)
  else .panic

/-- `convert_palette_for_png` (main.rs:425-458): RGBA8888 palettes pass
through unchanged, RGBA5551 palettes are expanded into a fresh
256-entry RGBA8888 table, any other valid format is rejected; an
invalid format discriminant fails at `image_format()`. -/
def convert_palette_for_png (palette_header : GimImageHeader)
    (palette_data : Buffer) : RRes Buffer :=
  if (isValidImageFormat palette_header.format) = false then
    .error "Failed to get palette image format"
  else if palette_header.format = 3 then .ok palette_data
  else if palette_header.format = 1 then
    List.foldlM (palExpandStep palette_data) (List.replicate 1024 0)
      (List.range 256)
  else .error "GIM Palette format not supported for conversion"

/-- Externally observable file-system effects of `process_image`
(main.rs:105-423), in program order: the pitch warning, the creation of
the output file, and the pixel buffer handed to the PNG encoder. -/
inductive Effect where
  | warnPitch : Nat → Nat → Effect
  | createFile : Effect
  | writeImage : Buffer → Effect
deriving DecidableEq, Repr

/-- The transcoder-relevant command-line arguments. -/
structure TArgs where
  tx : Nat
  ty : Nat
  linear : Bool
deriving DecidableEq, Repr

/-- The per-format conversion body of `process_image`
(main.rs:158-421), from the geometry computation onward. -/
def processPictureBody (pic : GimPicture) (args : TArgs) :
    List Effect × RRes Unit :=
  match alignedDim pic.image_header.height pic.image_header.height_align with
  | .error e => ([], .error e)
  | .panic => ([], .panic)
  | .ok ih =>
    match alignedDim pic.image_header.width pic.image_header.pitch_align with
    | .error e => ([], .error e)
    | .panic => ([], .panic)
    | .ok iw0 =>
      if pic.image_header.format = 3 then
        let g := rgba8888Geom iw0 ih pic.image_data.length
        let iw := g.1
        let pre : List Effect :=
          (if g.2 then [Effect.warnPitch iw0 iw] else []) ++ [Effect.createFile]
        let out0 : Buffer := List.replicate (iw * ih * 4) 0
        if pic.image_header.order = 1 ∧ args.linear = false then
          let tw := if 0 < args.tx then args.tx else 4
          let th := if 0 < args.ty then args.ty else 8
          match rgba8888TiledFill pic.image_data iw ih tw th out0 with
          | .ok out => (pre ++ [Effect.writeImage out], .ok ())
          | .error e => (pre, .error e)
          | .panic => (pre, .panic)
        else
          match rgba8888LinearFill pic.image_data iw ih with
          | .ok _ => (pre ++ [Effect.writeImage out0], .ok ())
          | .error e => (pre, .error e)
          | .panic => (pre, .panic)
      else if pic.image_header.format = 5 then
        match pic.palette_header, pic.palette_data with
        | some phdr, some praw =>
          match convert_palette_for_png phdr praw with
          | .error e => ([], .error e)
          | .panic => ([], .panic)
          | .ok pal =>
            let out0 : Buffer := List.replicate (iw0 * ih * 4) 0
            if pic.image_header.order = 1 ∧ args.linear = false then
              let tw := if 0 < args.tx then args.tx else 16
              let th := if 0 < args.ty then args.ty else 8
              match index8TiledFill pic.image_data pal iw0 ih tw th out0 with
              | .ok out => ([Effect.createFile, Effect.writeImage out], .ok ())
              | .error e => ([Effect.createFile], .error e)
              | .panic => ([Effect.createFile], .panic)
            else
              match index8LinearFill pic.image_data pal iw0 ih out0 with
              | .ok out => ([Effect.createFile, Effect.writeImage out], .ok ())
              | .error e => ([Effect.createFile], .error e)
              | .panic => ([Effect.createFile], .panic)
        | _, _ => ([], .error "GIM Image Format has no understood palette")
      else if pic.image_header.format = 4 then
        match pic.palette_header, pic.palette_data with
        | some phdr, some praw =>
          match convert_palette_for_png phdr praw with
          | .error e => ([], .error e)
          | .panic => ([], .panic)
          | .ok pal =>
            let out0 : Buffer := List.replicate (iw0 * ih * 4) 0
            if pic.image_header.order = 1 ∧ args.linear = false then
              let tw := if 0 < args.tx then args.tx else 16
              let th := if 0 < args.ty then args.ty else 8
              match index4TiledFill pic.image_data pal iw0 ih tw th out0 with
              | .ok out => ([Effect.createFile, Effect.writeImage out], .ok ())
              | .error e => ([Effect.createFile], .error e)
              | .panic => ([Effect.createFile], .panic)
            else
              match index4LinearFill pic.image_data pal iw0 ih out0 with
              | .ok out => ([Effect.createFile, Effect.writeImage out], .ok ())
              | .error e => ([Effect.createFile], .error e)
              | .panic => ([Effect.createFile], .panic)
        | _, _ => ([], .error "GIM Image Format has no understood palette")
      else ([], .error "GIM Image Format not supported for conversion")

/-- `process_image` after a successful `load_gim_image`
(main.rs:124-423): interpret the format and order discriminants,
reject multi-frame/multi-level pictures, then run the per-format
body. -/
def processPicture (pic : GimPicture) (args : TArgs) :
    List Effect × RRes Unit :=
  if (isValidImageFormat pic.image_header.format) = false then
    ([], .error "Failed to get image format")
  else if (isValidImageOrder pic.image_header.order) = false then
    ([], .error "Failed to get image order")
  else if 1 < pic.image_header.frame_count ∨ 1 < pic.image_header.level_count then
    ([], .error "GIM Image has multiple frames or levels")
  else processPictureBody pic args

/-- Decomposition helper: dividing `q * b + r` by `b` recovers `q`
when `r < b`. -/
theorem mulAddDiv (b q r : Nat) (hb : 0 < b) (hr : r < b) :
    (q * b + r) / b = q := by
  rw [Nat.mul_comm, Nat.mul_add_div hb, Nat.div_eq_of_lt hr]
  omega

/-- Decomposition helper: `q * b + r` mod `b` recovers `r` when
`r < b`. -/
theorem mulAddMod (b q r : Nat) (hr : r < b) : (q * b + r) % b = r := by
  rw [Nat.mul_comm, Nat.mul_add_mod, Nat.mod_eq_of_lt hr]

/-- Bound helper: `q * b + r < Q * b` when `q < Q` and `r < b`. -/
theorem mulAddLt {b q r Q : Nat} (hq : q < Q) (hr : r < b) :
    q * b + r < Q * b :=
  calc q * b + r < q * b + b := by omega
    _ = (q + 1) * b := by ring
    _ ≤ Q * b := Nat.mul_le_mul_right _ (by omega)

/-- The pixel-index map realised by the tiled RGBA8888 loop
(main.rs:204-214): payload pixel `s` is decomposed into tile index
`t = s / (tw*th)` with within-tile offset, `t` into `(tx, ty)` on the
`tiles_x = iw / tw` grid, and lands at image pixel
`(tx*tw + x, ty*th + y)`. -/
def detileDst (iw tw th : Nat) (s : Nat) : Nat :=
  let tiles_x := iw / tw
  let t := s / (tw * th)
  let r := s % (tw * th)
  let tx := t % tiles_x
  let ty := t / tiles_x
  let x := r % tw
  let y := r / tw
  (ty * th + y) * iw + (tx * tw + x)

/-- The inverse direction: re-tiling an image pixel `d` back to its
payload position using the same tile grid. -/
def retileSrc (iw tw th : Nat) (d : Nat) : Nat :=
  let tiles_x := iw / tw
  let py := d / iw
  let px := d % iw
  let ty := py / th
  let y := py % th
  let tx := px / tw
  let x := px % tw
  (ty * tiles_x + tx) * (tw * th) + y * tw + x

/-- The linear buffer produced by detiling `data` byte-for-byte:
byte `i` of the output is the payload byte at the re-tiled pixel. -/
def detileBytes (iw tw th : Nat) (data : Buffer) : Buffer :=
  (List.range data.length).map
    (fun i => data.getD (4 * retileSrc iw tw th (i / 4) + i % 4) 0)

/-- Re-tiling a linear buffer with the same tile grid. -/
def retileBytes (iw tw th : Nat) (out : Buffer) : Buffer :=
  (List.range out.length).map
    (fun i => out.getD (4 * detileDst iw tw th (i / 4) + i % 4) 0)

theorem detileDst_spec (iw ih tw th : Nat) (htw : 0 < tw) (hth : 0 < th)
    (hiw : tw ∣ iw) (hih : th ∣ ih) (s : Nat) (hs : s < iw * ih) :
    detileDst iw tw th s < iw * ih ∧ retileSrc iw tw th (detileDst iw tw th s) = s := by
  obtain ⟨tiles_x, hx⟩ := hiw
  obtain ⟨tiles_y, hy⟩ := hih
  have hpos : 0 < iw * ih := Nat.lt_of_le_of_lt (Nat.zero_le s) hs
  have hiw0 : 0 < iw := by
    rcases Nat.eq_zero_or_pos iw with h0 | h
    · subst h0; simp at hpos
    · exact h
  have htxpos : 0 < tiles_x := by
    rcases Nat.eq_zero_or_pos tiles_x with h0 | h
    · subst h0; simp at hx; omega
    · exact h
  have hm : 0 < tw * th := Nat.mul_pos htw hth
  have htx : iw / tw = tiles_x := by rw [hx, Nat.mul_div_cancel_left _ htw]
  have hrm : s % (tw * th) < tw * th := Nat.mod_lt _ hm
  have hxlt : s % (tw * th) % tw < tw := Nat.mod_lt _ htw
  have hylt : s % (tw * th) / tw < th := Nat.div_lt_of_lt_mul hrm
  have htlt : s / (tw * th) < tiles_x * tiles_y := by
    apply Nat.div_lt_of_lt_mul
    calc s < iw * ih := hs
      _ = tw * th * (tiles_x * tiles_y) := by rw [hx, hy]; ring
  have htxlt : s / (tw * th) % tiles_x < tiles_x := Nat.mod_lt _ htxpos
  have htylt : s / (tw * th) / tiles_x < tiles_y := Nat.div_lt_of_lt_mul htlt
  have hB : s / (tw * th) % tiles_x * tw + s % (tw * th) % tw < iw := by
    rw [hx, Nat.mul_comm tw tiles_x]; exact mulAddLt htxlt hxlt
  have hA : s / (tw * th) / tiles_x * th + s % (tw * th) / tw < ih := by
    rw [hy, Nat.mul_comm th tiles_y]; exact mulAddLt htylt hylt
  have hdst : detileDst iw tw th s =
      (s / (tw * th) / (iw / tw) * th + s % (tw * th) / tw) * iw +
        (s / (tw * th) % (iw / tw) * tw + s % (tw * th) % tw) := rfl
  rw [htx] at hdst
  constructor
  · rw [hdst, Nat.mul_comm iw ih]; exact mulAddLt hA hB
  · have hret : ∀ d : Nat, retileSrc iw tw th d =
        (d / iw / th * (iw / tw) + d % iw / tw) * (tw * th) +
          d / iw % th * tw + d % iw % tw := fun d => rfl
    rw [hdst, hret, htx, mulAddDiv iw _ _ hiw0 hB, mulAddMod iw _ _ hB,
      mulAddDiv th _ _ hth hylt, mulAddMod th _ _ hylt,
      mulAddDiv tw _ _ htw hxlt, mulAddMod tw _ _ hxlt]
    have e1 : s / (tw * th) / tiles_x * tiles_x + s / (tw * th) % tiles_x
        = s / (tw * th) := by
      rw [Nat.mul_comm]; exact Nat.div_add_mod _ _
    have e2 : s % (tw * th) / tw * tw + s % (tw * th) % tw = s % (tw * th) := by
      rw [Nat.mul_comm]; exact Nat.div_add_mod _ _
    rw [Nat.add_assoc, e1, e2, Nat.mul_comm]
    exact Nat.div_add_mod _ _

theorem retileSrc_spec (iw ih tw th : Nat) (htw : 0 < tw) (hth : 0 < th)
    (hiw : tw ∣ iw) (hih : th ∣ ih) (d : Nat) (hd : d < iw * ih) :
    retileSrc iw tw th d < iw * ih ∧ detileDst iw tw th (retileSrc iw tw th d) = d := by
  obtain ⟨tiles_x, hx⟩ := hiw
  obtain ⟨tiles_y, hy⟩ := hih
  have hpos : 0 < iw * ih := Nat.lt_of_le_of_lt (Nat.zero_le d) hd
  have hiw0 : 0 < iw := by
    rcases Nat.eq_zero_or_pos iw with h0 | h
    · subst h0; simp at hpos
    · exact h
  have htxpos : 0 < tiles_x := by
    rcases Nat.eq_zero_or_pos tiles_x with h0 | h
    · subst h0; simp at hx; omega
    · exact h
  have hm : 0 < tw * th := Nat.mul_pos htw hth
  have htx : iw / tw = tiles_x := by rw [hx, Nat.mul_div_cancel_left _ htw]
  have hpx : d % iw < iw := Nat.mod_lt _ hiw0
  have hpy : d / iw < ih := Nat.div_lt_of_lt_mul hd
  have hxlt : d % iw % tw < tw := Nat.mod_lt _ htw
  have hylt : d / iw % th < th := Nat.mod_lt _ hth
  have htxlt : d % iw / tw < tiles_x := by
    apply Nat.div_lt_of_lt_mul
    rw [← hx]; exact hpx
  have htylt : d / iw / th < tiles_y := by
    apply Nat.div_lt_of_lt_mul
    rw [← hy]; exact hpy
  have htlt : d / iw / th * tiles_x + d % iw / tw < tiles_y * tiles_x :=
    mulAddLt htylt htxlt
  have hrl : d / iw % th * tw + d % iw % tw < th * tw := mulAddLt hylt hxlt
  have hsrc : retileSrc iw tw th d =
      (d / iw / th * (iw / tw) + d % iw / tw) * (tw * th) +
        d / iw % th * tw + d % iw % tw := rfl
  rw [htx] at hsrc
  have hsrc2 : retileSrc iw tw th d =
      (d / iw / th * tiles_x + d % iw / tw) * (tw * th) +
        (d / iw % th * tw + d % iw % tw) := by rw [hsrc, Nat.add_assoc]
  constructor
  · rw [hsrc2]
    calc (d / iw / th * tiles_x + d % iw / tw) * (tw * th) +
          (d / iw % th * tw + d % iw % tw)
        < tiles_y * tiles_x * (tw * th) := by
          apply mulAddLt htlt
          rw [Nat.mul_comm tw th]; exact hrl
      _ = iw * ih := by rw [hx, hy]; ring
  · have hdet : ∀ s : Nat, detileDst iw tw th s =
        (s / (tw * th) / (iw / tw) * th + s % (tw * th) / tw) * iw +
          (s / (tw * th) % (iw / tw) * tw + s % (tw * th) % tw) := fun s => rfl
    have hrl2 : d / iw % th * tw + d % iw % tw < tw * th := by
      rw [Nat.mul_comm tw th]; exact hrl
    rw [hsrc2, hdet, htx, mulAddDiv (tw * th) _ _ hm hrl2,
      mulAddMod (tw * th) _ _ hrl2,
      mulAddDiv tiles_x _ _ htxpos htxlt, mulAddMod tiles_x _ _ htxlt,
      mulAddDiv tw _ _ htw hxlt, mulAddMod tw _ _ hxlt]
    have e1 : d / iw / th * th + d / iw % th = d / iw := by
      rw [Nat.mul_comm]; exact Nat.div_add_mod _ _
    have e2 : d % iw / tw * tw + d % iw % tw = d % iw := by
      rw [Nat.mul_comm]; exact Nat.div_add_mod _ _
    rw [e1, e2, Nat.mul_comm]
    exact Nat.div_add_mod _ _

theorem mapRange_getD (n : Nat) (f : Nat → Nat) (j : Nat) (h : j < n) :
    ((List.range n).map f).getD j 0 = f j := by
  rw [List.getD_eq_getElem?_getD]
  simp [List.getElem?_map, List.getElem?_range h]

/-- The detiling map agrees with the source loop's arithmetic: for loop
coordinates `(ty, tx, y, x)` in range, the payload pixel
`(ty*tiles_x + tx)*(tw*th) + y*tw + x` is sent to image pixel
`(ty*th + y)*iw + (tx*tw + x)` (main.rs:204-214, divided by the 4-byte
pixel size). -/
theorem detileDst_coords (iw tw th ty tx y x : Nat) (htw : 0 < tw)
    (hth : 0 < th) (htxlt : tx < iw / tw) (hylt : y < th) (hxlt : x < tw) :
    detileDst iw tw th ((ty * (iw / tw) + tx) * (tw * th) + (y * tw + x)) =
      (ty * th + y) * iw + (tx * tw + x) := by
  have htxpos : 0 < iw / tw := Nat.lt_of_le_of_lt (Nat.zero_le tx) htxlt
  have hr : y * tw + x < tw * th := by
    rw [Nat.mul_comm tw th]; exact mulAddLt hylt hxlt
  have hdet : ∀ s : Nat, detileDst iw tw th s =
      (s / (tw * th) / (iw / tw) * th + s % (tw * th) / tw) * iw +
        (s / (tw * th) % (iw / tw) * tw + s % (tw * th) % tw) := fun s => rfl
  rw [hdet, mulAddDiv (tw * th) _ _ (Nat.mul_pos htw hth) hr,
    mulAddMod (tw * th) _ _ hr,
    mulAddDiv (iw / tw) _ _ htxpos htxlt, mulAddMod (iw / tw) _ _ htxlt,
    mulAddDiv tw _ _ htw hxlt, mulAddMod tw _ _ hxlt]

/-- Byte-level round trip: re-tiling the detiled linear buffer with the
same tile grid reproduces the payload byte-for-byte. -/
theorem retile_detile_bytes (iw ih tw th : Nat) (htw : 0 < tw) (hth : 0 < th)
    (hiw : tw ∣ iw) (hih : th ∣ ih) (data : Buffer)
    (hlen : data.length = iw * ih * 4) :
    retileBytes iw tw th (detileBytes iw tw th data) = data := by
  have hlen1 : (detileBytes iw tw th data).length = data.length := by
    simp [detileBytes]
  apply List.ext_getElem
  · simp [retileBytes, detileBytes]
  · intro i h1 h2
    have hi : i < data.length := h2
    have hi4 : i / 4 < iw * ih := by
      apply Nat.div_lt_of_lt_mul
      omega
    obtain ⟨hFlt, hGF⟩ := detileDst_spec iw ih tw th htw hth hiw hih (i / 4) hi4
    have hmod : i % 4 < 4 := Nat.mod_lt _ (by omega)
    have hj : 4 * detileDst iw tw th (i / 4) + i % 4 < data.length := by
      have : detileDst iw tw th (i / 4) + 1 ≤ iw * ih := hFlt
      omega
    have hstep1 : (retileBytes iw tw th (detileBytes iw tw th data))[i] =
        (detileBytes iw tw th data).getD
          (4 * detileDst iw tw th (i / 4) + i % 4) 0 := by
      have h1' : i < (detileBytes iw tw th data).length := by omega
      simp [retileBytes, List.getElem_map, List.getElem_range]
    have hstep2 : (detileBytes iw tw th data).getD
        (4 * detileDst iw tw th (i / 4) + i % 4) 0 =
        data.getD (4 * retileSrc iw tw th
          ((4 * detileDst iw tw th (i / 4) + i % 4) / 4) +
          (4 * detileDst iw tw th (i / 4) + i % 4) % 4) 0 := by
      rw [detileBytes]
      exact mapRange_getD _ _ _ hj
    have hdiv : (4 * detileDst iw tw th (i / 4) + i % 4) / 4 =
        detileDst iw tw th (i / 4) := by
      rw [Nat.mul_add_div (by omega), Nat.div_eq_of_lt hmod]
      omega
    have hmod2 : (4 * detileDst iw tw th (i / 4) + i % 4) % 4 = i % 4 := by
      rw [Nat.mul_add_mod]
      omega
    rw [hstep1, hstep2, hdiv, hmod2, hGF]
    have hrec : 4 * (i / 4) + i % 4 = i := Nat.div_add_mod i 4
    rw [hrec]
    exact List.getD_eq_getElem data 0 hi

/-- Claim C5: for every tile size `(tw, th)` dividing the effective
dimensions `(iw, ih)` evenly, the detiling map of the tiled RGBA8888
path — tile index `t = ty*tiles_x + tx`, within-tile pixel `(x, y)`
sent to image pixel `(tx*tw + x, ty*th + y)` — agrees with the loop
arithmetic of main.rs:204-214, is a bijection between payload pixels
and output pixels (two-sided inverse `retileSrc`, both staying inside
the pixel range), and re-tiling the detiled linear output with the same
tile size reproduces the payload byte-for-byte. -/
theorem c5_detiling_bijection (iw ih tw th : Nat) (htw : 0 < tw)
    (hth : 0 < th) (hiw : tw ∣ iw) (hih : th ∣ ih) :
    (∀ ty tx y x, tx < iw / tw → y < th → x < tw →
      detileDst iw tw th ((ty * (iw / tw) + tx) * (tw * th) + (y * tw + x)) =
        (ty * th + y) * iw + (tx * tw + x))
    ∧ (∀ s, s < iw * ih →
        detileDst iw tw th s < iw * ih ∧
          retileSrc iw tw th (detileDst iw tw th s) = s)
    ∧ (∀ d, d < iw * ih →
        retileSrc iw tw th d < iw * ih ∧
          detileDst iw tw th (retileSrc iw tw th d) = d)
    ∧ (∀ data : Buffer, data.length = iw * ih * 4 →
        retileBytes iw tw th (detileBytes iw tw th data) = data) := by
  refine ⟨?_, ?_, ?_, ?_⟩
  · intro ty tx y x htxlt hylt hxlt
    exact detileDst_coords iw tw th ty tx y x htw hth htxlt hylt hxlt
  · intro s hs
    exact detileDst_spec iw ih tw th htw hth hiw hih s hs
  · intro d hd
    exact retileSrc_spec iw ih tw th htw hth hiw hih d hd
  · intro data hlen
    exact retile_detile_bytes iw ih tw th htw hth hiw hih data hlen

/-- Concrete instance of C5 at `iw = 8`, `ih = 16`, tile size 4×8. -/
theorem c5_detiling_bijection_witness :
    detileDst 8 4 8 37 < 128 ∧ retileSrc 8 4 8 (detileDst 8 4 8 37) = 37 ∧
      detileDst 8 4 8 ((1 * (8 / 4) + 1) * (4 * 8) + (2 * 4 + 3)) =
        (1 * 8 + 2) * 8 + (1 * 4 + 3) := by
  have h := c5_detiling_bijection 8 16 4 8 (by decide) (by decide)
    ⟨2, by decide⟩ ⟨2, by decide⟩
  refine ⟨(h.2.1 37 (by decide)).1, (h.2.1 37 (by decide)).2, ?_⟩
  exact h.1 1 1 2 3 (by decide) (by decide) (by decide)

/-- The malformed buffer of C4: a parent chunk at offset 0 whose child
at offset 16 declares `next_offs = 0`, so the walk never advances.
Layout: parent `(type 3, next 32, child 16, data 16)`, child
`(type 4, next 0, child 16, data 16)`. -/
def loopBuf : Buffer :=
  [3, 0, 0, 0, 32, 0, 0, 0, 16, 0, 0, 0, 16, 0, 0, 0,
   4, 0, 0, 0, 0, 0, 0, 0, 16, 0, 0, 0, 16, 0, 0, 0]

def loopParent : GimChunk :=
  { chunk_type := 3, next_offs := 32, child_offs := 16, data_offs := 16 }

theorem loopBuf_child_parse :
    gim_picture_get_chunk_header loopBuf 16 =
      .ok { chunk_type := 4, next_offs := 0, child_offs := 16, data_offs := 16 } := by
  decide

theorem loopBuf_getChildLoop_stuck :
    ∀ (fuel : Nat) (acc : Option (GimChunk × Nat)),
      getChildLoop loopBuf 32 SCEGIM_IMAGE fuel 16 acc = none := by
  intro fuel
  induction fuel with
  | zero => intro acc; rfl
  | succ n ih =>
    intro acc
    rw [getChildLoop, if_pos (by decide : (16 : Nat) < 32), loopBuf_child_parse]
    exact ih _

theorem loopBuf_processLoop_stuck :
    ∀ (fuel : Nat) (s : Nat),
      processChunkLoop loopBuf 32 (fun n _ _ => RRes.ok (n + 1)) fuel 16 s = none := by
  intro fuel
  induction fuel with
  | zero => intro s; rfl
  | succ n ih =>
    intro s
    rw [processChunkLoop, if_pos (by decide : (16 : Nat) < 32), loopBuf_child_parse]
    exact ih _

/-- Claim C4 (code-bug evaluation): on a buffer whose child chunk has
`next_offs = 0`, the child walk of `gim_get_child_chunk` and
`gim_process_child_chunks` never terminates — it exhausts every fuel
bound, re-reading offset 16 forever.  No `InfiniteLoop` error exists in
the source: the walk has no guard against a non-positive advance
(gim.rs:211, gim.rs:228). -/
theorem c4_child_walk_nonterminating :
    (∀ fuel : Nat,
      gim_get_child_chunk fuel loopBuf 0 loopParent SCEGIM_IMAGE = none)
    ∧ (∀ (fuel : Nat) (s : Nat),
        gim_process_child_chunks fuel loopBuf 0 loopParent
          (fun n _ _ => RRes.ok (n + 1)) s = none) := by
  constructor
  · intro fuel
    show getChildLoop loopBuf (0 + 32) SCEGIM_IMAGE fuel (0 + 16) none = none
    simpa using loopBuf_getChildLoop_stuck fuel none
  · intro fuel s
    show processChunkLoop loopBuf (0 + 32) _ fuel (0 + 16) s = none
    simpa using loopBuf_processLoop_stuck fuel s

/-- Transport of `lastMatchAcc` with an empty accumulator. -/
theorem lastMatchAcc_none (wanted : Nat) (l : List (GimChunk × Nat)) :
    lastMatchAcc wanted none l =
      (l.filter (fun p => p.1.chunk_type == wanted)).getLast? := by
  unfold lastMatchAcc
  cases (l.filter (fun p => p.1.chunk_type == wanted)).getLast? <;> rfl

/-- Claim C7: `gim_get_child_chunk` walks exactly the offsets reachable
from `start + child_offs` by adding each child's `next_offs` while
strictly below `start + next_offs` (the reference walk `childWalk`) and
returns the last visited child of the wanted type; when
`child_offs = next_offs` it returns `none` without visiting anything,
and `gim_process_child_chunks` invokes its callback zero times. -/
theorem c7_find_child_semantics :
    (∀ (fuel : Nat) (buffer : Buffer) (start : Nat) (parent : GimChunk)
        (wanted : Nat),
      gim_get_child_chunk fuel buffer start parent wanted =
        (childWalk buffer (start + parent.next_offs) fuel
            (start + parent.child_offs)).map
          (RRes.map (fun l =>
            (l.filter (fun p => p.1.chunk_type == wanted)).getLast?)))
    ∧ (∀ (fuel : Nat) (buffer : Buffer) (start : Nat) (parent : GimChunk)
        (wanted : Nat), parent.child_offs = parent.next_offs →
        gim_get_child_chunk (fuel + 1) buffer start parent wanted =
          some (.ok none))
    ∧ (∀ (fuel : Nat) (buffer : Buffer) (start : Nat) (parent : GimChunk)
        (s : Nat), parent.child_offs = parent.next_offs →
        gim_process_child_chunks (fuel + 1) buffer start parent
          (fun n _ _ => RRes.ok (n + 1)) s = some (.ok s)) := by
  refine ⟨?_, ?_, ?_⟩
  · intro fuel buffer start parent wanted
    rw [gim_get_child_chunk, getChildLoop_eq_walk]
    cases childWalk buffer (start + parent.next_offs) fuel
        (start + parent.child_offs) with
    | none => rfl
    | some r =>
      cases r with
      | ok l => simp [RRes.map, lastMatchAcc_none]
      | error e => rfl
      | panic => rfl
  · intro fuel buffer start parent wanted h
    rw [gim_get_child_chunk, h, getChildLoop,
      if_neg (Nat.lt_irrefl (start + parent.next_offs))]
  · intro fuel buffer start parent s h
    rw [gim_process_child_chunks, h, processChunkLoop,
      if_neg (Nat.lt_irrefl (start + parent.next_offs))]

/-- A well-formed two-child buffer for the C7 witness: a parent at 0
(`next 48, child 16`) with two type-4 children at offsets 16 and 32. -/
def twoKidsBuf : Buffer :=
  [3, 0, 0, 0, 48, 0, 0, 0, 16, 0, 0, 0, 16, 0, 0, 0,
   4, 0, 0, 0, 16, 0, 0, 0, 16, 0, 0, 0, 16, 0, 0, 0,
   4, 0, 1, 0, 16, 0, 0, 0, 16, 0, 0, 0, 20, 0, 0, 0]

def twoKidsParent : GimChunk :=
  { chunk_type := 3, next_offs := 48, child_offs := 16, data_offs := 16 }

def emptyParent : GimChunk :=
  { chunk_type := 3, next_offs := 16, child_offs := 16, data_offs := 16 }

/-- Concrete instance of C7: on a parent with two type-4 children the
walk returns the later one (offset 32); on a parent with
`child_offs = next_offs` it returns `none` and the callback runs zero
times. -/
theorem c7_find_child_semantics_witness :
    gim_get_child_chunk 5 twoKidsBuf 0 twoKidsParent 4 =
      some (.ok (some (GimChunk.mk 4 16 16 20, 32)))
    ∧ gim_get_child_chunk 6 twoKidsBuf 0 emptyParent 4 = some (.ok none)
    ∧ gim_process_child_chunks 6 twoKidsBuf 0 emptyParent
        (fun n _ _ => RRes.ok (n + 1)) 0 = some (.ok 0) := by
  refine ⟨?_, ?_, ?_⟩
  · rw [c7_find_child_semantics.1 5 twoKidsBuf 0 twoKidsParent 4]
    decide
  · exact c7_find_child_semantics.2.1 5 twoKidsBuf 0 emptyParent 4 (by decide)
  · exact c7_find_child_semantics.2.2 5 twoKidsBuf 0 emptyParent 0 (by decide)

/-- A fold whose every step either succeeds (preserving `P`) or fails
with a typed error does the same as a whole. -/
theorem foldlM_ok_or_error {α σ : Type} (P : σ → Prop) (f : σ → α → RRes σ) :
    ∀ l : List α,
      (∀ b a, a ∈ l → P b →
        (∃ b2, f b a = .ok b2 ∧ P b2) ∨ (∃ e, f b a = .error e)) →
      ∀ b, P b →
        (∃ b2, List.foldlM f b l = .ok b2 ∧ P b2) ∨
          (∃ e, List.foldlM f b l = .error e) := by
  intro l
  induction l with
  | nil =>
    intro _ b hb
    exact Or.inl ⟨b, rfl, hb⟩
  | cons a t ih =>
    intro hstep b hb
    rw [List.foldlM_cons]
    rcases hstep b a (List.mem_cons_self a t) hb with ⟨b2, hb2, hP⟩ | ⟨e, he⟩
    · rw [hb2]
      exact ih (fun b' a' ha' => hstep b' a' (List.mem_cons_of_mem a ha')) b2 hP
    · rw [he]
      exact Or.inr ⟨e, rfl⟩

/-- Claim C3 (amended part): the linear RGBA8888 transcode loop never
aborts — every source read is bounds-checked first (a failure is the
typed out-of-bounds error of main.rs:240) and every destination write
is within the freshly allocated buffer. -/
theorem c3_linear_rgba8888_no_panic (data : Buffer) (iw ih : Nat) :
    rgba8888LinearFill data iw ih ≠ .panic := by
  have hmain := foldlM_ok_or_error
    (fun out => out.length = iw * ih * 4)
    (fun out y =>
      List.foldlM (fun out x =>
        let src := (y * iw + x) * 4
        if data.length ≤ src + 3 then .error "source index out of bounds"
        else listSet4 out ((y * iw + x) * 4) (data.getD src 0)
          (data.getD (src + 1) 0) (data.getD (src + 2) 0)
          (data.getD (src + 3) 0))
        out (List.range iw))
    (List.range ih)
    (by
      intro out y hy hlen
      have hylt : y < ih := List.mem_range.mp hy
      dsimp only
      refine foldlM_ok_or_error (fun o => o.length = iw * ih * 4) _
        (List.range iw) ?_ out hlen
      intro o x hx ho
      have hxlt : x < iw := List.mem_range.mp hx
      by_cases hsrc : data.length ≤ (y * iw + x) * 4 + 3
      · exact Or.inr ⟨"source index out of bounds", by simp [hsrc]⟩
      · have hdst : (y * iw + x) * 4 + 3 < o.length := by
          have h1 : y * iw + x < ih * iw := mulAddLt hylt hxlt
          have h2 : ih * iw = iw * ih := Nat.mul_comm ih iw
          omega
        refine Or.inl ?_
        simp only [if_neg hsrc, listSet4, if_pos hdst]
        exact ⟨_, rfl, by simp [List.length_set, ho]⟩)
    (List.replicate (iw * ih * 4) 0)
    (by simp)
  rw [rgba8888LinearFill]
  rcases hmain with ⟨b2, hb2, _⟩ | ⟨e, he⟩
  · rw [hb2]; intro h; cases h
  · rw [he]; intro h; cases h

/-- Claim C3 (counterexample): the parse and transcode steps do not
always return typed errors on out-of-range input — reading a chunk
header with fewer than 16 bytes remaining, slicing past the buffer
end, the tiled INDEX4 per-pixel read, and the file-header read of a
short buffer all abort with an index/slice panic instead. -/
theorem c3_unchecked_reads_panic :
    gim_picture_get_chunk_header (List.replicate 15 0) 0 = .panic
    ∧ sliceBytes [0, 0] 0 5 = .panic
    ∧ index4TiledFill [] (List.replicate 1024 0) 16 8 16 8
        (List.replicate 512 0) = .panic
    ∧ gim_picture_check_file_header [46] = .panic := by
  refine ⟨by decide, by decide, by decide, by decide⟩

/-- The spec's alignment formula: `ceil(v / a) * a` with the usual
natural-number ceiling division `(v + a - 1) / a`. -/
def specAlign (v a : Nat) : Nat := ((v + a - 1) / a) * a

/-- Rust's `div_ceil` agrees with the spec's `(v + a - 1) / a` for a
positive divisor. -/
theorem rustDivCeil_eq (v a : Nat) (h : 0 < a) :
    rustDivCeil v a = (v + a - 1) / a := by
  obtain ⟨q, hq⟩ : ∃ q, q = v / a := ⟨_, rfl⟩
  obtain ⟨r, hrd⟩ : ∃ r, r = v % a := ⟨_, rfl⟩
  have hrlt : r < a := by rw [hrd]; exact Nat.mod_lt _ h
  have hv : v = a * q + r := by rw [hq, hrd]; exact (Nat.div_add_mod v a).symm
  subst hv
  clear hq hrd
  have hdiv : (a * q + r) / a = q := by
    rw [Nat.mul_add_div h, Nat.div_eq_of_lt hrlt]
    omega
  have hmod : (a * q + r) % a = r := by
    rw [Nat.mul_add_mod, Nat.mod_eq_of_lt hrlt]
  unfold rustDivCeil
  rw [hdiv, hmod]
  by_cases h0 : r = 0
  · rw [if_pos h0]
    subst h0
    have he : a * q + 0 + a - 1 = a - 1 + a * q := by omega
    rw [he, Nat.add_mul_div_left _ _ h]
    have h2 : (a - 1) / a = 0 := Nat.div_eq_of_lt (by omega)
    omega
  · rw [if_neg h0]
    have he : a * q + r + a - 1 = (r - 1) + a * (q + 1) := by
      have hx : a * (q + 1) = a * q + a := by ring
      omega
    rw [he, Nat.add_mul_div_left _ _ h]
    have h2 : (r - 1) / a = 0 := Nat.div_eq_of_lt (by omega)
    omega

/-- Claim C6: for positive alignments, the effective dimensions are the
spec's `ceil(width / pitch_align) * pitch_align` and
`ceil(height / height_align) * height_align`; when the aligned area's
byte size exceeds the payload length the width is recomputed as
`payload_len / 4 / effective_height` (floor division) with a warning,
and otherwise kept, the height never being recomputed. -/
theorem c6_effective_geometry (w h pa ha len : Nat) (hpa : 0 < pa)
    (hha : 0 < ha) :
    alignedDim h ha = .ok (specAlign h ha)
    ∧ alignedDim w pa = .ok (specAlign w pa)
    ∧ (len < specAlign h ha * specAlign w pa * 4 →
        rgba8888Geom (specAlign w pa) (specAlign h ha) len =
          (len / 4 / specAlign h ha, true))
    ∧ (¬ len < specAlign h ha * specAlign w pa * 4 →
        rgba8888Geom (specAlign w pa) (specAlign h ha) len =
          (specAlign w pa, false)) := by
  refine ⟨?_, ?_, ?_, ?_⟩
  · rw [alignedDim, if_neg (by omega), rustDivCeil_eq h ha hha]; rfl
  · rw [alignedDim, if_neg (by omega), rustDivCeil_eq w pa hpa]; rfl
  · intro hlt
    rw [rgba8888Geom, if_pos hlt]
  · intro hge
    rw [rgba8888Geom, if_neg hge]

/-- Concrete instance of C6 (the spec's worked example): width 100 with
pitch alignment 16 aligns to 112; with height aligned to 8 and a
payload of 3072 bytes (sized for width 96), the fallback recomputes the
width as `3072 / 4 / 8 = 96` and warns. -/
theorem c6_effective_geometry_witness :
    alignedDim 100 16 = .ok 112
    ∧ rgba8888Geom 112 8 3072 = (96, true) := by
  have hgeo := c6_effective_geometry 100 4 16 8 3072 (by decide) (by decide)
  have h1 : specAlign 100 16 = 112 := by decide
  have h2 : specAlign 4 8 = 8 := by decide
  constructor
  · have := hgeo.2.1
    rw [h1] at this
    exact this
  · have := hgeo.2.2.1 (by decide)
    rw [h1, h2] at this
    exact this

/-- The image header of the C1 failing input: a 1×1 RGBA8888 picture
with Normal order, one frame and one level. -/
def hdrC1 : GimImageHeader :=
  { header_size := 48, reference := 0, format := 3, order := 0, width := 1,
    height := 1, bpp := 32, pitch_align := 1, height_align := 1, dim_count := 2,
    reserved := 0, reserved2 := 0, offsets := 48, images := 52, total := 56,
    plane_mask := 0, level_type := 1, level_count := 1, frame_type := 3,
    frame_count := 1 }

def picC1 : GimPicture :=
  { image_header := hdrC1, image_offsets := [0], image_data := [1, 2, 3, 4],
    palette_header := none, palette_offsets := none, palette_data := none }

/-- Claim C1 (code-bug evaluation): for the 1×1 Normal-order RGBA8888
picture with payload `[1, 2, 3, 4]`, the buffer handed to the PNG
encoder is `[0, 0, 0, 0]`, not the payload: the linear loop of
main.rs:232-248 fills a shadowing local buffer that is dropped at the
end of the block, while the outer zero-initialised buffer of
main.rs:190 is what main.rs:251 writes.  The dropped inner fill does
compute the payload bytes. -/
theorem c1_linear_output_zeroed :
    processPicture picC1 { tx := 0, ty := 0, linear := false } =
      ([Effect.createFile, Effect.writeImage [0, 0, 0, 0]], .ok ())
    ∧ rgba8888LinearFill picC1.image_data 1 1 = .ok [1, 2, 3, 4]
    ∧ [0, 0, 0, 0] ≠ picC1.image_data := by
  refine ⟨by decide, by decide, by decide⟩

def hdrC2 : GimImageHeader :=
  { hdrC1 with format := 4, width := 2, bpp := 4 }

def palHdrC2 : GimImageHeader :=
  { hdrC1 with format := 3, width := 256 }

/-- A normalized 256-entry RGBA8888 palette whose byte at offset `i` is
`i % 256`, making every byte's origin identifiable. -/
def palC2 : Buffer := (List.range 1024).map (fun i => i % 256)

def picC2 : GimPicture :=
  { image_header := hdrC2, image_offsets := [0], image_data := [0xBA],
    palette_header := some palHdrC2, palette_offsets := some [0],
    palette_data := some palC2 }

set_option maxRecDepth 100000 in
/-- Claim C2 (code-bug evaluation): for the 2×1 linear INDEX4 picture
with payload byte `0xBA` and the identity-marked RGBA8888 palette, the
two output pixels are palette BYTES 10..13 and 11..14 — the nibble is
used as a byte offset without the ×4 entry stride (main.rs:398-409) —
whereas palette entries 10 and 11 are the bytes at offsets 40..43 and
44..47. -/
theorem c2_index4_missing_stride :
    processPicture picC2 { tx := 0, ty := 0, linear := false } =
      ([Effect.createFile,
        Effect.writeImage [10, 11, 12, 13, 11, 12, 13, 14]], .ok ())
    ∧ (palC2.drop 40).take 4 = [40, 41, 42, 43]
    ∧ (palC2.drop 44).take 4 = [44, 45, 46, 47]
    ∧ [10, 11, 12, 13, 11, 12, 13, 14] ≠
        [40, 41, 42, 43, 44, 45, 46, 47] := by
  refine ⟨by decide, by decide, by decide, by decide⟩

/-- Claim C9: any picture whose format and order discriminants are
valid but which declares more than one frame or more than one level is
rejected before the conversion body runs: no output file is created,
no pixel is transcoded, and the result is the multi-frame error of
main.rs:130-132. -/
theorem c9_multiframe_rejected (pic : GimPicture) (args : TArgs)
    (hf : isValidImageFormat pic.image_header.format = true)
    (ho : isValidImageOrder pic.image_header.order = true)
    (hm : 1 < pic.image_header.frame_count ∨ 1 < pic.image_header.level_count) :
    processPicture pic args =
      ([], .error "GIM Image has multiple frames or levels") := by
  rw [processPicture, hf, ho]
  simp [hm]

def hdrC9 : GimImageHeader := { hdrC1 with frame_count := 2 }

def picC9 : GimPicture := { picC1 with image_header := hdrC9 }

/-- Concrete instance of C9: a picture with `frame_count = 2` is
rejected with no effects performed. -/
theorem c9_multiframe_rejected_witness :
    processPicture picC9 { tx := 0, ty := 0, linear := false } =
      ([], .error "GIM Image has multiple frames or levels") :=
  c9_multiframe_rejected picC9 { tx := 0, ty := 0, linear := false }
    (by decide) (by decide) (Or.inl (by decide))

theorem listGetD_set_ne (l : Buffer) (i v j : Nat) (h : i ≠ j) :
    (l.set i v).getD j 0 = l.getD j 0 := by
  simp [List.getD_eq_getElem?_getD, List.getElem?_set_ne h]

theorem listGetD_set_self (l : Buffer) (i v : Nat) (h : i < l.length) :
    (l.set i v).getD i 0 = v := by
  simp [List.getD_eq_getElem?_getD, List.getElem?_set_self, h]

/-- Byte `j` of the expanded RGBA5551 palette, as computed by
`palExpandStep` for entry `j / 4`, channel `j % 4`. -/
def palByte (pal : Buffer) (j : Nat) : Nat :=
  let pix := ((pal.getD (j / 4 * 2 + 1) 0) <<< 8) ||| (pal.getD (j / 4 * 2) 0)
  if j % 4 = 0 then (pix &&& 31) <<< 3
  else if j % 4 = 1 then ((pix >>> 5) &&& 31) <<< 3
  else if j % 4 = 2 then ((pix >>> 10) &&& 31) <<< 3
  else if pix &&& 32768 ≠ 0 then 255 else 0

/-- The palette expansion fold writes exactly `palByte` into the first
`4 * n` positions and leaves the rest of the initial buffer intact. -/
theorem palFold_spec (pal : Buffer) (hpal : 512 ≤ pal.length) :
    ∀ n, n ≤ 256 → ∀ B : Buffer, B.length = 1024 →
      ∃ C, List.foldlM (palExpandStep pal) B (List.range n) = .ok C
        ∧ C.length = 1024
        ∧ (∀ j, j < 4 * n → C.getD j 0 = palByte pal j)
        ∧ (∀ j, 4 * n ≤ j → C.getD j 0 = B.getD j 0) := by
  intro n
  induction n with
  | zero =>
    intro _ B hB
    exact ⟨B, rfl, hB, fun j hj => absurd hj (by omega), fun j _ => rfl⟩
  | succ n ih =>
    intro hn B hB
    obtain ⟨C, hC, hClen, hCnew, hCold⟩ := ih (by omega) B hB
    have hread : n * 2 + 1 < pal.length := by omega
    have hwrite : n * 4 + 3 < C.length := by omega
    have hstep : palExpandStep pal C n =
        .ok ((((C.set (n * 4) (palByte pal (n * 4))).set (n * 4 + 1)
          (palByte pal (n * 4 + 1))).set (n * 4 + 2)
          (palByte pal (n * 4 + 2))).set (n * 4 + 3)
          (palByte pal (n * 4 + 3))) := by
      rw [palExpandStep, if_pos ⟨hread, hwrite⟩]
      have hd : n * 4 / 4 = n := by omega
      have h1 : (n * 4 + 1) / 4 = n := by omega
      have h2 : (n * 4 + 2) / 4 = n := by omega
      have h3 : (n * 4 + 3) / 4 = n := by omega
      have hm0 : n * 4 % 4 = 0 := by omega
      have hm1 : (n * 4 + 1) % 4 = 1 := by omega
      have hm2 : (n * 4 + 2) % 4 = 2 := by omega
      have hm3 : (n * 4 + 3) % 4 = 3 := by omega
      simp only [palByte, hd, h1, h2, h3, hm0, hm1, hm2, hm3]
      norm_num
    have hrange : List.range (n + 1) = List.range n ++ [n] := by
      rw [Nat.add_one]; exact List.range_succ n
    have hfold : List.foldlM (palExpandStep pal) B (List.range (n + 1)) =
        .ok ((((C.set (n * 4) (palByte pal (n * 4))).set (n * 4 + 1)
          (palByte pal (n * 4 + 1))).set (n * 4 + 2)
          (palByte pal (n * 4 + 2))).set (n * 4 + 3)
          (palByte pal (n * 4 + 3))) := by
      rw [hrange, List.foldlM_append, hC]
      show RRes.bind _ _ = _
      rw [RRes.bind_ok, List.foldlM_cons, hstep]
      rfl
    refine ⟨_, hfold, ?_, ?_, ?_⟩
    · simp [List.length_set, hClen]
    · intro j hj
      by_cases hjn : j < 4 * n
      · have hne0 : n * 4 ≠ j := by omega
        have hne1 : n * 4 + 1 ≠ j := by omega
        have hne2 : n * 4 + 2 ≠ j := by omega
        have hne3 : n * 4 + 3 ≠ j := by omega
        rw [listGetD_set_ne _ _ _ _ hne3, listGetD_set_ne _ _ _ _ hne2,
          listGetD_set_ne _ _ _ _ hne1, listGetD_set_ne _ _ _ _ hne0]
        exact hCnew j hjn
      · have hcase : j = n * 4 ∨ j = n * 4 + 1 ∨ j = n * 4 + 2 ∨ j = n * 4 + 3 := by
          omega
        have hl0 : (C.set (n * 4) (palByte pal (n * 4))).length = 1024 := by
          simp [List.length_set, hClen]
        have hl1 : ((C.set (n * 4) (palByte pal (n * 4))).set (n * 4 + 1)
            (palByte pal (n * 4 + 1))).length = 1024 := by
          simp [List.length_set, hClen]
        have hl2 : (((C.set (n * 4) (palByte pal (n * 4))).set (n * 4 + 1)
            (palByte pal (n * 4 + 1))).set (n * 4 + 2)
            (palByte pal (n * 4 + 2))).length = 1024 := by
          simp [List.length_set, hClen]
        rcases hcase with rfl | rfl | rfl | rfl
        · rw [listGetD_set_ne _ _ _ _ (by omega), listGetD_set_ne _ _ _ _ (by omega),
            listGetD_set_ne _ _ _ _ (by omega),
            listGetD_set_self _ _ _ (by omega)]
        · rw [listGetD_set_ne _ _ _ _ (by omega), listGetD_set_ne _ _ _ _ (by omega),
            listGetD_set_self _ _ _ (by omega)]
        · rw [listGetD_set_ne _ _ _ _ (by omega),
            listGetD_set_self _ _ _ (by omega)]
        · rw [listGetD_set_self _ _ _ (by omega)]
    · intro j hj
      rw [listGetD_set_ne _ _ _ _ (by omega), listGetD_set_ne _ _ _ _ (by omega),
        listGetD_set_ne _ _ _ _ (by omega), listGetD_set_ne _ _ _ _ (by omega)]
      exact hCold j (by omega)

/-- The 16-bit little-endian reading of palette entry `i` — the spec's
`p`. -/
def leEntry (pal : Buffer) (i : Nat) : Nat :=
  pal.getD (i * 2) 0 + 256 * pal.getD (i * 2 + 1) 0

/-- For byte-valued palettes the packed construction of
main.rs:438-440 equals the little-endian entry value. -/
theorem palPix_eq_leEntry (pal : Buffer) (hb : ∀ b ∈ pal, b < 256) (i : Nat) :
    ((pal.getD (i * 2 + 1) 0) <<< 8) ||| (pal.getD (i * 2) 0) = leEntry pal i := by
  have hlo : pal.getD (i * 2) 0 < 256 := by
    by_cases h : i * 2 < pal.length
    · rw [List.getD_eq_getElem pal 0 h]
      exact hb _ (List.getElem_mem h)
    · rw [List.getD_eq_default pal 0 (by omega)]
      omega
  have hlo2 : pal.getD (i * 2) 0 < 2 ^ 8 := by
    have h28 : (2 : Nat) ^ 8 = 256 := by norm_num
    omega
  rw [Nat.shiftLeft_eq, Nat.mul_comm _ (2 ^ 8), ← Nat.mul_add_lt_is_or hlo2]
  unfold leEntry
  norm_num
  omega

/-- The four expanded bytes of entry `i` in terms of the little-endian
entry value. -/
theorem palByte_eq (pal : Buffer) (hb : ∀ b ∈ pal, b < 256) (i : Nat) :
    palByte pal (i * 4) = (leEntry pal i &&& 31) <<< 3
    ∧ palByte pal (i * 4 + 1) = ((leEntry pal i >>> 5) &&& 31) <<< 3
    ∧ palByte pal (i * 4 + 2) = ((leEntry pal i >>> 10) &&& 31) <<< 3
    ∧ palByte pal (i * 4 + 3) =
        (if leEntry pal i &&& 32768 ≠ 0 then 255 else 0) := by
  have hpix := palPix_eq_leEntry pal hb i
  have hd0 : i * 4 / 4 = i := by omega
  have hd1 : (i * 4 + 1) / 4 = i := by omega
  have hd2 : (i * 4 + 2) / 4 = i := by omega
  have hd3 : (i * 4 + 3) / 4 = i := by omega
  have hm0 : i * 4 % 4 = 0 := by omega
  have hm1 : (i * 4 + 1) % 4 = 1 := by omega
  have hm2 : (i * 4 + 2) % 4 = 2 := by omega
  have hm3 : (i * 4 + 3) % 4 = 3 := by omega
  refine ⟨?_, ?_, ?_, ?_⟩
  · unfold palByte
    rw [hd0, hm0, hpix]
    simp
  · unfold palByte
    rw [hd1, hm1, hpix]
    simp
  · unfold palByte
    rw [hd2, hm2, hpix]
    simp
  · unfold palByte
    rw [hd3, hm3, hpix]
    simp

/-- Claim C8: an RGBA5551 palette (with byte-valued contents and at
least 512 payload bytes) is normalized entry-by-entry: for each 16-bit
little-endian entry `p`, the output bytes of entry `i` are
`r = (p &&& 0x1F) <<< 3`, `g = ((p >>> 5) &&& 0x1F) <<< 3`,
`b = ((p >>> 10) &&& 0x1F) <<< 3`, `a = 255` iff bit 15 of `p` is set;
and every valid palette format other than RGBA8888 (3) and RGBA5551 (1)
is rejected with an error. -/
theorem c8_palette_normalization :
    (∀ (hdr : GimImageHeader) (pal : Buffer),
      hdr.format = 1 → 512 ≤ pal.length → (∀ b ∈ pal, b < 256) →
      ∃ out, convert_palette_for_png hdr pal = .ok out ∧ out.length = 1024 ∧
        ∀ i, i < 256 →
          out.getD (i * 4) 0 = (leEntry pal i &&& 31) <<< 3
          ∧ out.getD (i * 4 + 1) 0 = ((leEntry pal i >>> 5) &&& 31) <<< 3
          ∧ out.getD (i * 4 + 2) 0 = ((leEntry pal i >>> 10) &&& 31) <<< 3
          ∧ out.getD (i * 4 + 3) 0 =
              (if leEntry pal i &&& 32768 ≠ 0 then 255 else 0))
    ∧ (∀ (hdr : GimImageHeader) (pal : Buffer),
        isValidImageFormat hdr.format = true → hdr.format ≠ 3 → hdr.format ≠ 1 →
        (convert_palette_for_png hdr pal).isError = true) := by
  constructor
  · intro hdr pal hfmt hlen hbytes
    obtain ⟨C, hC, hClen, hCnew, _⟩ := palFold_spec pal hlen 256 (le_refl 256)
      (List.replicate 1024 0) (List.length_replicate 1024 0)
    refine ⟨C, ?_, hClen, ?_⟩
    · rw [convert_palette_for_png, hfmt]
      have hval : isValidImageFormat 1 = true := by decide
      rw [hval]
      norm_num
      exact hC
    · intro i hi
      obtain ⟨p0, p1, p2, p3⟩ := palByte_eq pal hbytes i
      refine ⟨?_, ?_, ?_, ?_⟩
      · rw [hCnew (i * 4) (by omega), p0]
      · rw [hCnew (i * 4 + 1) (by omega), p1]
      · rw [hCnew (i * 4 + 2) (by omega), p2]
      · rw [hCnew (i * 4 + 3) (by omega), p3]
  · intro hdr pal hval h3 h1
    rw [convert_palette_for_png, hval]
    rw [if_neg (by simp), if_neg h3, if_neg h1]
    rfl

def palW : Buffer := [0, 128, 0, 0] ++ List.replicate 508 0

def hdrPal5551 : GimImageHeader := { hdrC1 with format := 1 }

def hdrPal4444 : GimImageHeader := { hdrC1 with format := 2 }

set_option maxRecDepth 100000 in
/-- Concrete instance of C8: entry `0x8000` expands to RGBA
`(0, 0, 0, 255)`, entry `0x0000` to `(0, 0, 0, 0)`, and an RGBA4444
palette is rejected. -/
theorem c8_palette_normalization_witness :
    (∃ out, convert_palette_for_png hdrPal5551 palW = .ok out
      ∧ out.getD 0 0 = 0 ∧ out.getD 1 0 = 0 ∧ out.getD 2 0 = 0
      ∧ out.getD 3 0 = 255
      ∧ out.getD 4 0 = 0 ∧ out.getD 5 0 = 0 ∧ out.getD 6 0 = 0
      ∧ out.getD 7 0 = 0)
    ∧ (convert_palette_for_png hdrPal4444 palW).isError = true := by
  constructor
  · obtain ⟨out, hout, hlen, hspec⟩ :=
      c8_palette_normalization.1 hdrPal5551 palW (by decide) (by decide)
        (by decide)
    obtain ⟨e0, e1, e2, e3⟩ := hspec 0 (by decide)
    obtain ⟨f0, f1, f2, f3⟩ := hspec 1 (by decide)
    have hv0 : (leEntry palW 0 &&& 31) <<< 3 = 0 := by decide
    have hv1 : ((leEntry palW 0 >>> 5) &&& 31) <<< 3 = 0 := by decide
    have hv2 : ((leEntry palW 0 >>> 10) &&& 31) <<< 3 = 0 := by decide
    have hv3 : (if leEntry palW 0 &&& 32768 ≠ 0 then (255 : Nat) else 0)
        = 255 := by decide
    have hw0 : (leEntry palW 1 &&& 31) <<< 3 = 0 := by decide
    have hw1 : ((leEntry palW 1 >>> 5) &&& 31) <<< 3 = 0 := by decide
    have hw2 : ((leEntry palW 1 >>> 10) &&& 31) <<< 3 = 0 := by decide
    have hw3 : (if leEntry palW 1 &&& 32768 ≠ 0 then (255 : Nat) else 0)
        = 0 := by decide
    refine ⟨out, hout, ?_, ?_, ?_, ?_, ?_, ?_, ?_, ?_⟩
    · simpa [hv0] using e0
    · simpa [hv1] using e1
    · simpa [hv2] using e2
    · simpa [hv3] using e3
    · simpa [hw0] using f0
    · simpa [hw1] using f1
    · simpa [hw2] using f2
    · simpa [hw3] using f3
  · exact c8_palette_normalization.2 hdrPal4444 palW (by decide) (by decide)
      (by decide)

/-- Folding the classification callback over children none of which is
an image chunk leaves the image fields untouched. -/
theorem foldChunks_image_preserved (buffer : Buffer) :
    ∀ (l : List (GimChunk × Nat)) (s0 s : LoadState),
      foldChunks (loadCallback buffer) s0 l = .ok s →
      (∀ p ∈ l, p.1.chunk_type ≠ SCEGIM_IMAGE) →
      s.image_header = s0.image_header ∧ s.image_offsets = s0.image_offsets ∧
        s.image_data = s0.image_data := by
  intro l
  induction l with
  | nil =>
    intro s0 s h _
    simp only [foldChunks] at h
    cases h
    exact ⟨rfl, rfl, rfl⟩
  | cons p t ih =>
    intro s0 s h hni
    obtain ⟨c, o⟩ := p
    simp only [foldChunks] at h
    cases hcb : loadCallback buffer s0 c o with
    | error e => rw [hcb] at h; cases h
    | panic => rw [hcb] at h; cases h
    | ok s1 =>
      rw [hcb] at h
      have hcne : c.chunk_type ≠ SCEGIM_IMAGE := by
        have := hni (c, o) (List.mem_cons_self _ _)
        simpa using this
      have hpres : s1.image_header = s0.image_header ∧
          s1.image_offsets = s0.image_offsets ∧
          s1.image_data = s0.image_data := by
        rw [loadCallback, if_neg hcne] at hcb
        by_cases hp : c.chunk_type = SCEGIM_PALETTE
        · rw [if_pos hp] at hcb
          cases hdec : decodeImageChild buffer o c with
          | ok trip =>
            obtain ⟨h1, o1, d1⟩ := trip
            rw [hdec] at hcb
            cases hcb
            exact ⟨rfl, rfl, rfl⟩
          | error e => rw [hdec] at hcb; cases hcb
          | panic => rw [hdec] at hcb; cases hcb
        · rw [if_neg hp] at hcb; cases hcb
      obtain ⟨ha, hb, hc2⟩ :=
        ih s1 s h (fun q hq => hni q (List.mem_cons_of_mem _ hq))
      exact ⟨ha.trans hpres.1, hb.trans hpres.2.1, hc2.trans hpres.2.2⟩

/-- Dual of `foldChunks_image_preserved` for the palette fields. -/
theorem foldChunks_palette_preserved (buffer : Buffer) :
    ∀ (l : List (GimChunk × Nat)) (s0 s : LoadState),
      foldChunks (loadCallback buffer) s0 l = .ok s →
      (∀ p ∈ l, p.1.chunk_type ≠ SCEGIM_PALETTE) →
      s.palette_header = s0.palette_header ∧
        s.palette_offsets = s0.palette_offsets ∧
        s.palette_data = s0.palette_data := by
  intro l
  induction l with
  | nil =>
    intro s0 s h _
    simp only [foldChunks] at h
    cases h
    exact ⟨rfl, rfl, rfl⟩
  | cons p t ih =>
    intro s0 s h hni
    obtain ⟨c, o⟩ := p
    simp only [foldChunks] at h
    cases hcb : loadCallback buffer s0 c o with
    | error e => rw [hcb] at h; cases h
    | panic => rw [hcb] at h; cases h
    | ok s1 =>
      rw [hcb] at h
      have hcne : c.chunk_type ≠ SCEGIM_PALETTE := by
        have := hni (c, o) (List.mem_cons_self _ _)
        simpa using this
      have hpres : s1.palette_header = s0.palette_header ∧
          s1.palette_offsets = s0.palette_offsets ∧
          s1.palette_data = s0.palette_data := by
        rw [loadCallback] at hcb
        by_cases hp : c.chunk_type = SCEGIM_IMAGE
        · rw [if_pos hp] at hcb
          cases hdec : decodeImageChild buffer o c with
          | ok trip =>
            obtain ⟨h1, o1, d1⟩ := trip
            rw [hdec] at hcb
            cases hcb
            exact ⟨rfl, rfl, rfl⟩
          | error e => rw [hdec] at hcb; cases hcb
          | panic => rw [hdec] at hcb; cases hcb
        · rw [if_neg hp, if_neg hcne] at hcb; cases hcb
      obtain ⟨ha, hb, hc2⟩ :=
        ih s1 s h (fun q hq => hni q (List.mem_cons_of_mem _ hq))
      exact ⟨ha.trans hpres.1, hb.trans hpres.2.1, hc2.trans hpres.2.2⟩

/-- After a successful fold of the classification callback, the image
fields hold exactly the decode of the LAST image-type child. -/
theorem foldChunks_last_image (buffer : Buffer) :
    ∀ (l : List (GimChunk × Nat)) (s0 s : LoadState) (c : GimChunk) (o : Nat),
      foldChunks (loadCallback buffer) s0 l = .ok s →
      (l.filter (fun p => p.1.chunk_type == SCEGIM_IMAGE)).getLast? =
        some (c, o) →
      ∃ hd od dd, decodeImageChild buffer o c = .ok (hd, od, dd)
        ∧ s.image_header = some hd ∧ s.image_offsets = some od ∧
          s.image_data = some dd := by
  intro l
  induction l with
  | nil =>
    intro s0 s c o _ hlast
    simp at hlast
  | cons p t ih =>
    intro s0 s c o h hlast
    obtain ⟨c0, o0⟩ := p
    simp only [foldChunks] at h
    cases hcb : loadCallback buffer s0 c0 o0 with
    | error e => rw [hcb] at h; cases h
    | panic => rw [hcb] at h; cases h
    | ok s1 =>
      rw [hcb] at h
      by_cases himg : c0.chunk_type = SCEGIM_IMAGE
      · have hfil : ((c0, o0) :: t).filter
            (fun p => p.1.chunk_type == SCEGIM_IMAGE) =
            (c0, o0) :: t.filter (fun p => p.1.chunk_type == SCEGIM_IMAGE) := by
          simp [List.filter_cons, himg]
        rw [hfil, List.getLast?_cons] at hlast
        cases hlt : (t.filter (fun p => p.1.chunk_type == SCEGIM_IMAGE)).getLast? with
        | some q =>
          rw [hlt] at hlast
          simp only [Option.getD_some, Option.some.injEq] at hlast
          subst hlast
          exact ih s1 s c o h hlt
        | none =>
          rw [hlt] at hlast
          simp only [Option.getD_none, Option.some.injEq, Prod.mk.injEq] at hlast
          obtain ⟨rfl, rfl⟩ : c0 = c ∧ o0 = o := hlast
          have hemptyf : t.filter (fun p => p.1.chunk_type == SCEGIM_IMAGE) = [] := by
            cases hft : t.filter (fun p => p.1.chunk_type == SCEGIM_IMAGE) with
            | nil => rfl
            | cons a b => rw [hft, List.getLast?_cons] at hlt; cases hlt
          have hnone : ∀ q ∈ t, q.1.chunk_type ≠ SCEGIM_IMAGE := by
            intro q hq hqi
            have hmem : q ∈ t.filter (fun p => p.1.chunk_type == SCEGIM_IMAGE) :=
              List.mem_filter.mpr ⟨hq, by simpa using hqi⟩
            rw [hemptyf] at hmem
            simp at hmem
          obtain ⟨hh, ho2, hd2⟩ := foldChunks_image_preserved buffer t s1 s h hnone
          rw [loadCallback, if_pos himg] at hcb
          cases hdec : decodeImageChild buffer o0 c0 with
          | ok trip =>
            obtain ⟨hd', od', dd'⟩ := trip
            rw [hdec] at hcb
            cases hcb
            exact ⟨hd', od', dd', rfl, by rw [hh], by rw [ho2], by rw [hd2]⟩
          | error e => rw [hdec] at hcb; cases hcb
          | panic => rw [hdec] at hcb; cases hcb
      · have hfil : ((c0, o0) :: t).filter
            (fun p => p.1.chunk_type == SCEGIM_IMAGE) =
            t.filter (fun p => p.1.chunk_type == SCEGIM_IMAGE) := by
          simp [List.filter_cons, himg]
        rw [hfil] at hlast
        exact ih s1 s c o h hlast

/-- Dual of `foldChunks_last_image` for palette children. -/
theorem foldChunks_last_palette (buffer : Buffer) :
    ∀ (l : List (GimChunk × Nat)) (s0 s : LoadState) (c : GimChunk) (o : Nat),
      foldChunks (loadCallback buffer) s0 l = .ok s →
      (l.filter (fun p => p.1.chunk_type == SCEGIM_PALETTE)).getLast? =
        some (c, o) →
      ∃ hd od dd, decodeImageChild buffer o c = .ok (hd, od, dd)
        ∧ s.palette_header = some hd ∧ s.palette_offsets = some od ∧
          s.palette_data = some dd := by
  intro l
  induction l with
  | nil =>
    intro s0 s c o _ hlast
    simp at hlast
  | cons p t ih =>
    intro s0 s c o h hlast
    obtain ⟨c0, o0⟩ := p
    simp only [foldChunks] at h
    cases hcb : loadCallback buffer s0 c0 o0 with
    | error e => rw [hcb] at h; cases h
    | panic => rw [hcb] at h; cases h
    | ok s1 =>
      rw [hcb] at h
      by_cases hpal : c0.chunk_type = SCEGIM_PALETTE
      · have hfil : ((c0, o0) :: t).filter
            (fun p => p.1.chunk_type == SCEGIM_PALETTE) =
            (c0, o0) :: t.filter (fun p => p.1.chunk_type == SCEGIM_PALETTE) := by
          simp [List.filter_cons, hpal]
        rw [hfil, List.getLast?_cons] at hlast
        cases hlt : (t.filter (fun p => p.1.chunk_type == SCEGIM_PALETTE)).getLast? with
        | some q =>
          rw [hlt] at hlast
          simp only [Option.getD_some, Option.some.injEq] at hlast
          subst hlast
          exact ih s1 s c o h hlt
        | none =>
          rw [hlt] at hlast
          simp only [Option.getD_none, Option.some.injEq, Prod.mk.injEq] at hlast
          obtain ⟨rfl, rfl⟩ : c0 = c ∧ o0 = o := hlast
          have hemptyf : t.filter (fun p => p.1.chunk_type == SCEGIM_PALETTE) = [] := by
            cases hft : t.filter (fun p => p.1.chunk_type == SCEGIM_PALETTE) with
            | nil => rfl
            | cons a b => rw [hft, List.getLast?_cons] at hlt; cases hlt
          have hnone : ∀ q ∈ t, q.1.chunk_type ≠ SCEGIM_PALETTE := by
            intro q hq hqi
            have hmem : q ∈ t.filter (fun p => p.1.chunk_type == SCEGIM_PALETTE) :=
              List.mem_filter.mpr ⟨hq, by simpa using hqi⟩
            rw [hemptyf] at hmem
            simp at hmem
          obtain ⟨hh, ho2, hd2⟩ := foldChunks_palette_preserved buffer t s1 s h hnone
          have hcne : c0.chunk_type ≠ SCEGIM_IMAGE := by
            rw [hpal]; decide
          rw [loadCallback, if_neg hcne, if_pos hpal] at hcb
          cases hdec : decodeImageChild buffer o0 c0 with
          | ok trip =>
            obtain ⟨hd', od', dd'⟩ := trip
            rw [hdec] at hcb
            cases hcb
            exact ⟨hd', od', dd', rfl, by rw [hh], by rw [ho2], by rw [hd2]⟩
          | error e => rw [hdec] at hcb; cases hcb
          | panic => rw [hdec] at hcb; cases hcb
      · have hfil : ((c0, o0) :: t).filter
            (fun p => p.1.chunk_type == SCEGIM_PALETTE) =
            t.filter (fun p => p.1.chunk_type == SCEGIM_PALETTE) := by
          simp [List.filter_cons, hpal]
        rw [hfil] at hlast
        exact ih s1 s c o h hlast

/-- Claim C10: when `load_gim_image` succeeds and the picture chunk's
children walk succeeds with visited list `l`, the returned image
header, offsets table and payload are the decode of the LAST image-type
child of `l` (later image children overwrite earlier ones), and
likewise the palette fields are the decode of the last palette-type
child. -/
theorem c10_last_child_wins (buffer : Buffer) (fuel : Nat)
    (root pchunk : GimChunk) (poff : Nat) (l : List (GimChunk × Nat))
    (pic : GimPicture)
    (hload : load_gim_image fuel buffer = some (.ok pic))
    (hroot : gim_picture_get_chunk_header buffer 16 = .ok root)
    (hfind : gim_get_child_chunk fuel buffer 16 root SCEGIM_PICTURE =
      some (.ok (some (pchunk, poff))))
    (hwalk : childWalk buffer (poff + pchunk.next_offs) fuel
      (poff + pchunk.child_offs) = some (.ok l)) :
    (∀ c o, (l.filter (fun p => p.1.chunk_type == SCEGIM_IMAGE)).getLast? =
        some (c, o) →
      decodeImageChild buffer o c =
        .ok (pic.image_header, pic.image_offsets, pic.image_data))
    ∧ (∀ c o, (l.filter (fun p => p.1.chunk_type == SCEGIM_PALETTE)).getLast? =
        some (c, o) →
      ∃ hd od dd, decodeImageChild buffer o c = .ok (hd, od, dd)
        ∧ pic.palette_header = some hd ∧ pic.palette_offsets = some od
        ∧ pic.palette_data = some dd) := by
  rw [load_gim_image] at hload
  cases hchk : gim_picture_check_file_header buffer with
  | error e => rw [hchk] at hload; simp at hload
  | panic => rw [hchk] at hload; simp at hload
  | ok u =>
    simp only [hchk, hroot, hfind] at hload
    have hproc : gim_process_child_chunks fuel buffer poff pchunk
        (loadCallback buffer) initLoadState =
        some (foldChunks (loadCallback buffer) initLoadState l) :=
      processChunkLoop_eq_foldChunks buffer _ (loadCallback buffer) fuel _
        initLoadState l hwalk
    simp only [hproc] at hload
    cases hfold : foldChunks (loadCallback buffer) initLoadState l with
    | error e => simp only [hfold] at hload; simp at hload
    | panic => simp only [hfold] at hload; simp at hload
    | ok st =>
      simp only [hfold] at hload
      cases hih : st.image_header with
      | none => simp only [hih] at hload; simp at hload
      | some hd =>
        simp only [hih] at hload
        cases hio : st.image_offsets with
        | none => simp only [hio] at hload; simp at hload
        | some od =>
          simp only [hio] at hload
          cases hid : st.image_data with
          | none => simp only [hid] at hload; simp at hload
          | some dd =>
            simp only [hid] at hload
            simp only [Option.some.injEq, RRes.ok.injEq] at hload
            subst hload
            constructor
            · intro c o hlast
              obtain ⟨hd2, od2, dd2, hdec, hh, ho, hda⟩ :=
                foldChunks_last_image buffer l initLoadState st c o hfold hlast
              rw [hih] at hh
              rw [hio] at ho
              rw [hid] at hda
              cases hh
              cases ho
              cases hda
              exact hdec
            · intro c o hlast
              obtain ⟨hd2, od2, dd2, hdec, hh, ho, hda⟩ :=
                foldChunks_last_palette buffer l initLoadState st c o hfold hlast
              exact ⟨hd2, od2, dd2, hdec, hh, ho, hda⟩

def u16le (v : Nat) : List Nat := [v % 256, v / 256 % 256]

def u32le (v : Nat) : List Nat :=
  [v % 256, v / 256 % 256, v / 65536 % 256, v / 16777216 % 256]

def mkChunkBytes (t n c d : Nat) : List Nat :=
  u16le t ++ u16le 0 ++ u32le n ++ u32le c ++ u32le d

/-- A well-formed image-data child: chunk header, 48-byte image header
(1×1 RGBA8888, one level, one frame), a one-entry offset table and a
4-byte payload. -/
def imgChildBytes (p0 p1 p2 p3 : Nat) : List Nat :=
  mkChunkBytes 4 72 16 16 ++
  (u16le 48 ++ u16le 0 ++ u16le 3 ++ u16le 0 ++ u16le 1 ++ u16le 1 ++
   u16le 32 ++ u16le 1 ++ u16le 1 ++ u16le 2 ++ u16le 0 ++ u16le 0 ++
   u32le 48 ++ u32le 52 ++ u32le 56 ++ u32le 0 ++
   u16le 1 ++ u16le 1 ++ u16le 3 ++ u16le 1) ++
  u32le 72 ++ [p0, p1, p2, p3]

/-- A complete GIM file whose picture chunk carries TWO image-data
children, with payloads `[1,1,1,1]` (offset 48) and `[9,9,9,9]`
(offset 120). -/
def gimBuf : Buffer :=
  u32le 0x2e47494d ++ u32le 0x312e3030 ++ u32le 0x00505350 ++ u32le 0 ++
  mkChunkBytes 2 176 16 16 ++
  mkChunkBytes 3 160 16 16 ++
  imgChildBytes 1 1 1 1 ++
  imgChildBytes 9 9 9 9

/-- The picture `load_gim_image` extracts from `gimBuf`: the payload of
the SECOND image child. -/
def picC10 : GimPicture :=
  { image_header := hdrC1, image_offsets := [72], image_data := [9, 9, 9, 9],
    palette_header := none, palette_offsets := none, palette_data := none }

def lC10 : List (GimChunk × Nat) :=
  [(GimChunk.mk 4 72 16 16, 48), (GimChunk.mk 4 72 16 16, 120)]

set_option maxRecDepth 100000 in
/-- Concrete instance of C10: on `gimBuf` the loader returns the decode
of the image child at offset 120 — the later of the two — whose payload
is `[9,9,9,9]`. -/
theorem c10_last_child_wins_witness :
    decodeImageChild gimBuf 120 (GimChunk.mk 4 72 16 16) =
      .ok (picC10.image_header, picC10.image_offsets, picC10.image_data)
    ∧ picC10.image_data = [9, 9, 9, 9] := by
  have h := c10_last_child_wins gimBuf 10 (GimChunk.mk 2 176 16 16)
    (GimChunk.mk 3 160 16 16) 32 lC10 picC10 (by decide) (by decide)
    (by decide) (by decide)
  exact ⟨h.1 (GimChunk.mk 4 72 16 16) 120 (by decide), by decide⟩

end Gim2Png
